import Mathlib

/-
Verification of the core of the nightly-labs/sui checkpoint indexer.

The Rust sources are shallowly embedded:
  * crates/sui-json-rpc/src/balance_changes.rs   (balance-change engines, object provider cache)
  * crates/sui-json-rpc/src/object_changes.rs    (object-change engines)
  * crates/sui-types/src/nats_queue.rs           (ordered publisher)

Machine integers (u64, i64, i128) are modelled as Nat / Int; the u64
sentinel u64::MAX used by the publisher is kept explicit.  Fallible Rust
code returning Result<_, E> is modelled with Except; panics (assert_eq!,
unwrap, expect) inside the engines are modelled as distinguished
constructors of an EngineError type, so that "the engine fails" is
observable.  Rust HashMap/BTreeMap values are modelled as lookup
functions built by folding insertions (later insertions win, as in Rust);
the pending buffer of the publisher, which is iterated and mutated, is
modelled as an association list with unique keys.  Canonical string
renderings (ObjectID::to_canonical_string, SuiAddress::to_string,
StructTag::to_canonical_string) are injective, so strings are modelled by
the underlying values themselves.
-/

namespace Sui

abbrev ObjectID := Nat
abbrev SequenceNumber := Nat
abbrev ObjectDigest := Nat
abbrev SuiAddress := Nat

/-- Owner of an object (sui-types object.rs).  Both AddressOwner and
ObjectOwner carry an address and expose it through get_owner_address. -/
inductive Owner where
  | addressOwner (a : SuiAddress)
  | objectOwner (a : SuiAddress)
  | shared (initial_shared_version : SequenceNumber)
  | immutable
deriving DecidableEq

/-- Owner::get_owner_address: Ok for AddressOwner / ObjectOwner, Err otherwise. -/
def Owner.get_owner_address : Owner → Option SuiAddress
  | .addressOwner a => some a
  | .objectOwner a => some a
  | .shared _ => none
  | .immutable => none

/-- Move type tags, restricted to the shapes the engines inspect:
Bool (repurposed as the gas sentinel), the SUI gas token struct,
a coin struct 0x2::coin::Coin<T>, and all other struct tags. -/
inductive TypeTag where
  | bool
  | sui
  | coinStruct (t : TypeTag)
  | otherStruct (n : Nat)
deriving DecidableEq

/-- MoveObjectType::is_coin holds exactly for 0x2::coin::Coin<T>. -/
def TypeTag.is_coin : TypeTag → Bool
  | .coinStruct _ => true
  | _ => false

/-- The single type parameter of a coin struct
(into_type_params().try_into() in the Rust code). -/
def TypeTag.coin_type_param : TypeTag → Option TypeTag
  | .coinStruct t => some t
  | _ => none

/-- GAS::type_tag(), the tag of the SUI gas token. -/
def GAS_type_tag : TypeTag := TypeTag.sui

/-- Serialized Move object: its type and its BCS contents bytes. -/
structure MoveObjectRepr where
  type_ : TypeTag
  contents : List Nat
deriving DecidableEq

/-- Object payload: a Move object or a package with its module names
(module names modelled as numbers). -/
inductive ObjectData where
  | moveObject (m : MoveObjectRepr)
  | package (id : ObjectID) (version : SequenceNumber) (modules : List Nat)
deriving DecidableEq

structure Object where
  id : ObjectID
  version : SequenceNumber
  digest : ObjectDigest
  owner : Owner
  data : ObjectData
deriving DecidableEq

/-- Object::type_(): Some for Move objects, None for packages. -/
def Object.type_ (o : Object) : Option TypeTag :=
  match o.data with
  | .moveObject m => some m.type_
  | .package _ _ _ => none

/-- Data::try_as_move().map(into_contents). -/
def Object.try_as_move_contents (o : Object) : Option (List Nat) :=
  match o.data with
  | .moveObject m => some m.contents
  | .package _ _ _ => none

/-- Little-endian read of a byte list. -/
def u64_from_le (bs : List Nat) : Nat :=
  bs.foldr (fun b acc => b + 256 * acc) 0

/-- A coin's BCS contents are a 32-byte UID followed by the u64 balance
in little-endian form; decoding fails on any other length. -/
def coin_balance_bytes (contents : List Nat) : Option Nat :=
  if contents.length = 40 then some (u64_from_le (contents.drop 32)) else none

/-- Coin::extract_balance_if_coin: Ok(Some balance) for a decodable coin,
Ok(None) for a non-coin, Err (here: none) when a declared coin fails to
decode. -/
def extract_balance_if_coin (o : Object) : Option (Option Nat) :=
  match o.data with
  | .moveObject m =>
      if m.type_.is_coin then
        match coin_balance_bytes m.contents with
        | some b => some (some b)
        | none => none
      else some none
  | .package _ _ _ => some none

/-- Helper to build well-formed coin contents for concrete scenarios. -/
def coin_contents (bal : Nat) : List Nat :=
  List.replicate 32 0 ++ (List.range 8).map (fun k => bal / 256 ^ k % 256)

/-- The object provider capability (trait ObjectProvider). -/
structure Provider (E : Type) where
  get_object : ObjectID → SequenceNumber → Except E Object
  find_object_lt_or_eq_version : ObjectID → SequenceNumber → Except E (Option Object)

/-- Failure modes of the engines: a provider error propagated with ?, or
one of the panics the engine code can hit (assert_eq! on digests, unwrap
on a corrupt coin payload, expect on a missing status entry). -/
inductive EngineError (E : Type) where
  | provider (e : E)
  | digestMismatch
  | corruptCoin
  | missingStatus
deriving DecidableEq

abbrev ObjectEntry := ObjectID × SequenceNumber × Option ObjectDigest

/-- fetch_coins of balance_changes.rs: for each (id, version, digest?)
entry fetch the object; coins contribute (owner, inner type, balance),
with the digest assertion checked only for coins. -/
def fetch_coins {E : Type} (p : Provider E) :
    List ObjectEntry → Except (EngineError E) (List (Owner × TypeTag × Nat))
  | [] => .ok []
  | (id, version, digest_opt) :: rest =>
    match p.get_object id version with
    | .error e => .error (.provider e)
    | .ok o =>
      match o.type_ with
      | none => fetch_coins p rest
      | some t =>
        if t.is_coin then
          if (match digest_opt with
              | some digest => digest == o.digest
              | none => true) then
            match t.coin_type_param, extract_balance_if_coin o with
            | some ct, some (some bal) =>
                (fetch_coins p rest).map (fun tail => (o.owner, ct, bal) :: tail)
            | _, _ => .error .corruptCoin
          else .error .digestMismatch
        else fetch_coins p rest

/-- custom_fetch_coins: identical, but also records the object id. -/
def custom_fetch_coins {E : Type} (p : Provider E) :
    List ObjectEntry → Except (EngineError E) (List (Owner × TypeTag × ObjectID × Nat))
  | [] => .ok []
  | (id, version, digest_opt) :: rest =>
    match p.get_object id version with
    | .error e => .error (.provider e)
    | .ok o =>
      match o.type_ with
      | none => custom_fetch_coins p rest
      | some t =>
        if t.is_coin then
          if (match digest_opt with
              | some digest => digest == o.digest
              | none => true) then
            match t.coin_type_param, extract_balance_if_coin o with
            | some ct, some (some bal) =>
                (custom_fetch_coins p rest).map
                  (fun tail => (o.owner, ct, o.id, bal) :: tail)
            | _, _ => .error .corruptCoin
          else .error .digestMismatch
        else custom_fetch_coins p rest

/-- Accumulator update: BTreeMap entry(k).or_default() += delta.  The
embedding keeps first-insertion order of keys instead of BTreeMap key
order; none of the verified properties depends on the relative order of
distinct keys, which the specification leaves unspecified. -/
def acc_update {K : Type} [DecidableEq K] :
    List (K × Int) → K → Int → List (K × Int)
  | [], k, delta => [(k, delta)]
  | (k', v) :: rest, k, delta =>
    if k' = k then (k', v + delta) :: rest
    else (k', v) :: acc_update rest k delta

structure BalanceChange where
  owner : Owner
  coin_type : TypeTag
  amount : Int
deriving DecidableEq

/-- get_balance_changes: subtract input coins, add mutated coins, emit
the keys with non-zero net. -/
def get_balance_changes {E : Type} (p : Provider E)
    (modified_at_version all_mutated : List ObjectEntry) :
    Except (EngineError E) (List BalanceChange) :=
  match fetch_coins p modified_at_version with
  | .error e => .error e
  | .ok inputs =>
    let balances := inputs.foldl
      (fun acc x => acc_update acc (x.1, x.2.1) (-(x.2.2 : Int))) []
    match fetch_coins p all_mutated with
    | .error e => .error e
    | .ok outputs =>
      let balances := outputs.foldl
        (fun acc x => acc_update acc (x.1, x.2.1) (x.2.2 : Int)) balances
      .ok (balances.filterMap (fun kv =>
        if kv.2 = 0 then none
        else some { owner := kv.1.1, coin_type := kv.1.2, amount := kv.2 }))

structure CustomBalanceChange where
  object_id : ObjectID
  owner : Owner
  coin_type : TypeTag
  amount : Int
deriving DecidableEq

/-- custom_get_balance_changes: same accumulation keyed additionally by
object id; the final filter_map keeps every key, zero nets included. -/
def custom_get_balance_changes {E : Type} (p : Provider E)
    (modified_at_version all_mutated : List ObjectEntry) :
    Except (EngineError E) (List CustomBalanceChange) :=
  match custom_fetch_coins p modified_at_version with
  | .error e => .error e
  | .ok inputs =>
    let balances := inputs.foldl
      (fun acc x => acc_update acc (x.1, x.2.1, x.2.2.1) (-(x.2.2.2 : Int))) []
    match custom_fetch_coins p all_mutated with
    | .error e => .error e
    | .ok outputs =>
      let balances := outputs.foldl
        (fun acc x => acc_update acc (x.1, x.2.1, x.2.2.1) (x.2.2.2 : Int)) balances
      .ok (balances.filterMap (fun kv =>
        some { object_id := kv.1.2.2, owner := kv.1.1,
               coin_type := kv.1.2.1, amount := kv.2 }))

abbrev ObjectRef := ObjectID × SequenceNumber × ObjectDigest

inductive ExecutionStatus where
  | success
  | failure
deriving DecidableEq

inductive WriteKind where
  | create
  | mutate
  | unwrap
deriving DecidableEq

inductive ObjectRemoveKind where
  | delete
  | wrap
deriving DecidableEq

/-- The slice of TransactionEffects the engines read, accessed through
TransactionEffectsAPI: gas object and owner, execution status, net gas
usage (i64, signed), and the object bookkeeping lists. -/
structure TransactionEffects where
  gas_object : ObjectRef × Owner
  status : ExecutionStatus
  net_gas_usage : Int
  modified_at_versions : List (ObjectID × SequenceNumber)
  all_changed_objects : List (ObjectRef × Owner × WriteKind)
  all_removed_objects : List (ObjectRef × ObjectRemoveKind)
  unwrapped_then_deleted : List ObjectRef

inductive InputObjectKind where
  | immOrOwnedMoveObject (ref : ObjectRef)
  | movePackage (id : ObjectID)
  | sharedMoveObject (id : ObjectID)

/-- Whether an id equals the caller-designated mocked coin
(matches!(mocked_coin, Some(coin) if id == coin)). -/
def is_mocked (mocked_coin : Option ObjectID) (id : ObjectID) : Bool :=
  match mocked_coin with
  | some c => id == c
  | none => false

/-- HashMap<ObjectID, ObjectDigest> collected from the input object
kinds; as in Rust, a later insertion for the same key wins. -/
def input_objs_to_digest (l : List InputObjectKind) : ObjectID → Option ObjectDigest :=
  l.foldl (fun m k =>
    match k with
    | .immOrOwnedMoveObject (id, _, d) => fun q => if q = id then some d else m q
    | .movePackage _ => m
    | .sharedMoveObject _ => m) (fun _ => none)

/-- The all_mutated list both from_effect engines build: changed objects
minus the mocked coin, each with its digest. -/
def effect_mutated_entries (effects : TransactionEffects)
    (mocked_coin : Option ObjectID) : List ObjectEntry :=
  effects.all_changed_objects.filterMap (fun x =>
    if is_mocked mocked_coin x.1.1 then none
    else some (x.1.1, x.1.2.1, some x.1.2.2))

/-- The modified_at_version list both from_effect engines build: the
modified-at-versions pairs minus the mocked coin and minus ids in
unwrapped_then_deleted, each with the digest from the input objects. -/
def effect_modified_entries (effects : TransactionEffects)
    (input_objs : List InputObjectKind) (mocked_coin : Option ObjectID) :
    List ObjectEntry :=
  effects.modified_at_versions.filterMap (fun x =>
    if is_mocked mocked_coin x.1 then none
    else if (effects.unwrapped_then_deleted.map (·.1)).contains x.1 then none
    else some (x.1, x.2, input_objs_to_digest input_objs x.1))

/-- get_balance_changes_from_effect: gas-only fast path on failure,
otherwise the filtered lists are handed to get_balance_changes. -/
def get_balance_changes_from_effect {E : Type} (p : Provider E)
    (effects : TransactionEffects) (input_objs : List InputObjectKind)
    (mocked_coin : Option ObjectID) :
    Except (EngineError E) (List BalanceChange) :=
  let gas_owner := effects.gas_object.2
  if effects.status ≠ .success then
    .ok [{ owner := gas_owner, coin_type := GAS_type_tag,
           amount := -effects.net_gas_usage }]
  else
    get_balance_changes p
      (effect_modified_entries effects input_objs mocked_coin)
      (effect_mutated_entries effects mocked_coin)

inductive ObjectStatus where
  | created
  | mutated
  | deleted
deriving DecidableEq

/-- BalanceChangeWithStatus; object_id stands for the canonical string
rendering of the id, which is injective. -/
structure BalanceChangeWithStatus where
  owner : Owner
  coin_type : TypeTag
  amount : Int
  object_id : ObjectID
  status : ObjectStatus
deriving DecidableEq

/-- The for_each body of get_balance_changes_with_status_from_effect:
each accumulated record is classified, in order, against the input-owner
map, the output-owner map and finally the status map, whose absence is
the expect panic. -/
def classify_all {E : Type}
    (input_objects_to_owner output_objects_to_owner : ObjectID → Option Owner)
    (status_map : ObjectID → Option ObjectStatus) :
    List CustomBalanceChange → Except (EngineError E) (List BalanceChangeWithStatus)
  | [] => .ok []
  | bc :: rest =>
    let old_owner := input_objects_to_owner bc.object_id
    if old_owner.isSome ∧ old_owner ≠ some bc.owner then
      (classify_all input_objects_to_owner output_objects_to_owner status_map rest).map
        (fun tail => { object_id := bc.object_id, owner := bc.owner,
                       coin_type := bc.coin_type, amount := bc.amount,
                       status := .created } :: tail)
    else
      let old_owner := output_objects_to_owner bc.object_id
      if old_owner.isSome ∧ old_owner ≠ some bc.owner then
        (classify_all input_objects_to_owner output_objects_to_owner status_map rest).map
          (fun tail => { object_id := bc.object_id, owner := bc.owner,
                         coin_type := bc.coin_type, amount := bc.amount,
                         status := .deleted } :: tail)
      else
        match status_map bc.object_id with
        | some st =>
          (classify_all input_objects_to_owner output_objects_to_owner status_map rest).map
            (fun tail => { object_id := bc.object_id, owner := bc.owner,
                           coin_type := bc.coin_type, amount := bc.amount,
                           status := st } :: tail)
        | none => .error .missingStatus

/-- The synthetic gas record appended after classification: Bool is the
sentinel gas tag, the amount is the raw (positive) net gas usage. -/
def gas_with_status_record (effects : TransactionEffects) : BalanceChangeWithStatus :=
  { owner := effects.gas_object.2, coin_type := TypeTag.bool,
    amount := effects.net_gas_usage, object_id := effects.gas_object.1.1,
    status := .mutated }

/-- get_balance_changes_with_status_from_effect: gas-only fast path on
failure; otherwise accumulate per-object records, classify each and
append the synthetic gas record. -/
def get_balance_changes_with_status_from_effect {E : Type} (p : Provider E)
    (effects : TransactionEffects) (input_objs : List InputObjectKind)
    (mocked_coin : Option ObjectID)
    (status_map : ObjectID → Option ObjectStatus)
    (input_objects_to_owner output_objects_to_owner : ObjectID → Option Owner) :
    Except (EngineError E) (List BalanceChangeWithStatus) :=
  let gas_owner := effects.gas_object.2
  if effects.status ≠ .success then
    .ok [{ owner := gas_owner, coin_type := GAS_type_tag,
           amount := -effects.net_gas_usage,
           object_id := effects.gas_object.1.1, status := .mutated }]
  else
    match custom_get_balance_changes p
        (effect_modified_entries effects input_objs mocked_coin)
        (effect_mutated_entries effects mocked_coin) with
    | .error e => .error e
    | .ok all_balance_changes =>
      match classify_all input_objects_to_owner output_objects_to_owner
          status_map all_balance_changes with
      | .error e => .error e
      | .ok classified => .ok (classified ++ [gas_with_status_record effects])

inductive ObjectChange where
  | mutated (sender : SuiAddress) (owner : Owner) (object_type : TypeTag)
      (object_id : ObjectID) (version : SequenceNumber)
      (previous_version : SequenceNumber) (digest : ObjectDigest)
  | created (sender : SuiAddress) (owner : Owner) (object_type : TypeTag)
      (object_id : ObjectID) (version : SequenceNumber) (digest : ObjectDigest)
  | deleted (sender : SuiAddress) (object_type : TypeTag)
      (object_id : ObjectID) (version : SequenceNumber)
  | wrapped (sender : SuiAddress) (object_type : TypeTag)
      (object_id : ObjectID) (version : SequenceNumber)
  | published (package_id : ObjectID) (version : SequenceNumber)
      (digest : ObjectDigest) (modules : List Nat)
deriving DecidableEq

structure Received where
  sender_address : SuiAddress
  receiver_address : SuiAddress
deriving DecidableEq

structure Sent where
  sender_address : SuiAddress
  receiver_address : SuiAddress
deriving DecidableEq

inductive ObjectUpdateStatus where
  | created
  | mutated
  | deleted
  | received (r : Received)
  | sent (s : Sent)
deriving DecidableEq

/-- Denormalized bus message (odin sui_ws ObjectChangeUpdate); strings are
modelled by the underlying injective values, object_metadata is always
None in this core. -/
structure ObjectChangeUpdate where
  object_id : ObjectID
  object_type_tag : Option TypeTag
  object_version : Option SequenceNumber
  object_bcs : Option (List Nat)
  object_metadata : Option Unit
  status : ObjectUpdateStatus
deriving DecidableEq

/-- The input/output ownership maps of custom_get_object_changes: id
(as canonical string) to the Ok/Err result of get_owner_address; later
entries of the HashMap-building iterator win. -/
def ownership_map (objs : List Object) : ObjectID → Option (Option SuiAddress) :=
  objs.foldl (fun m o => fun q => if q = o.id then some o.owner.get_owner_address else m q)
    (fun _ => none)

/-- modified_at_versions collected into a map; later pairs win. -/
def modify_at_version_map (l : List (ObjectID × SequenceNumber)) :
    ObjectID → Option SequenceNumber :=
  l.foldl (fun m x => fun q => if q = x.1 then some x.2 else m q) (fun _ => none)

/-- One iteration of the all_changed_objects loop of
custom_get_object_changes: the canonical record plus the extended
classification of mutated / created move objects. -/
def process_changed_entry {E : Type} (p : Provider E) (sender : SuiAddress)
    (input_ownership_map : ObjectID → Option (Option SuiAddress))
    (modify_at_version : ObjectID → Option SequenceNumber)
    (entry : ObjectRef × Owner × WriteKind) :
    Except E (List ObjectChange × List (Option SuiAddress × ObjectChangeUpdate)) :=
  match entry with
  | ((object_id, version, digest), owner, kind) =>
    match p.get_object object_id version with
    | .error e => .error e
    | .ok o =>
      match o.type_ with
      | some object_type =>
        let address_owner := o.owner.get_owner_address
        let data := o.try_as_move_contents
        match kind with
        | .mutate =>
          let canonical := ObjectChange.mutated sender owner object_type object_id
            version ((modify_at_version object_id).getD 0) digest
          match input_ownership_map object_id with
          | none => .ok ([canonical], [])
          | some object_owner =>
            match object_owner, address_owner with
            | some old_owner, some new_owner =>
              if old_owner ≠ new_owner then
                .ok ([canonical],
                  [(some new_owner,
                    { object_id := object_id, object_type_tag := some object_type,
                      object_version := some version, object_bcs := data,
                      object_metadata := none,
                      status := .received ⟨old_owner, new_owner⟩ })])
              else .ok ([canonical], [])
            | some _, none =>
              .ok ([canonical],
                [(none,
                  { object_id := object_id, object_type_tag := some object_type,
                    object_version := some version, object_bcs := data,
                    object_metadata := none, status := .mutated })])
            | none, none =>
              .ok ([canonical],
                [(none,
                  { object_id := object_id, object_type_tag := some object_type,
                    object_version := some version, object_bcs := data,
                    object_metadata := none, status := .mutated })])
            | none, some new_owner =>
              .ok ([canonical],
                [(some new_owner,
                  { object_id := object_id, object_type_tag := some object_type,
                    object_version := some version, object_bcs := data,
                    object_metadata := none, status := .mutated })])
        | .create =>
          let canonical := ObjectChange.created sender owner object_type object_id
            version digest
          match input_ownership_map object_id, address_owner with
          | some (some old_owner), some new_owner =>
            if old_owner ≠ new_owner then
              .ok ([canonical],
                [(some new_owner,
                  { object_id := object_id, object_type_tag := some object_type,
                    object_version := some version, object_bcs := data,
                    object_metadata := none,
                    status := .received ⟨old_owner, new_owner⟩ })])
            else .ok ([canonical], [])
          | some none, some new_owner =>
            .ok ([canonical],
              [(some new_owner,
                { object_id := object_id, object_type_tag := some object_type,
                  object_version := some version, object_bcs := data,
                  object_metadata := none, status := .mutated })])
          | some _, none =>
            .ok ([canonical],
              [(none,
                { object_id := object_id, object_type_tag := some object_type,
                  object_version := some version, object_bcs := data,
                  object_metadata := none, status := .created })])
          | none, none =>
            .ok ([canonical],
              [(none,
                { object_id := object_id, object_type_tag := some object_type,
                  object_version := some version, object_bcs := data,
                  object_metadata := none, status := .created })])
          | none, some new_owner =>
            .ok ([canonical],
              [(some new_owner,
                { object_id := object_id, object_type_tag := some object_type,
                  object_version := some version, object_bcs := data,
                  object_metadata := none, status := .created })])
        | .unwrap => .ok ([], [])
      | none =>
        match o.data with
        | .package pid pver pmods =>
          if kind = .create then
            .ok ([ObjectChange.published pid pver digest pmods], [])
          else .ok ([], [])
        | .moveObject _ => .ok ([], [])

/-- One iteration of the all_removed_objects loop of
custom_get_object_changes: resolve the latest version at most V, emit the
canonical Deleted/Wrapped record, then classify the removal against the
output and input ownership maps. -/
def process_removed_entry {E : Type} (p : Provider E) (sender : SuiAddress)
    (input_ownership_map output_ownership_map : ObjectID → Option (Option SuiAddress))
    (entry : ObjectRef × ObjectRemoveKind) :
    Except E (List ObjectChange × List (Option SuiAddress × ObjectChangeUpdate)) :=
  match entry with
  | ((id, version, _), kind) =>
    match p.find_object_lt_or_eq_version id version with
    | .error e => .error e
    | .ok none => .ok ([], [])
    | .ok (some o) =>
      match o.type_ with
      | none => .ok ([], [])
      | some object_type =>
        let canonical :=
          match kind with
          | .delete => ObjectChange.deleted sender object_type id version
          | .wrap => ObjectChange.wrapped sender object_type id version
        match o.try_as_move_contents with
        | none => .ok ([canonical], [])
        | some data =>
          let address_owner := o.owner.get_owner_address
          match output_ownership_map id with
          | some new_owner_opt =>
            match input_ownership_map id with
            | none => .ok ([canonical], [])
            | some old_owner =>
              match new_owner_opt with
              | some new_owner =>
                .ok ([canonical],
                  [(old_owner,
                    { object_id := id, object_type_tag := some object_type,
                      object_version := some version, object_bcs := some data,
                      object_metadata := none,
                      status := .sent ⟨new_owner, new_owner⟩ })])
              | none =>
                .ok ([canonical],
                  [(old_owner,
                    { object_id := id, object_type_tag := some object_type,
                      object_version := some version, object_bcs := some data,
                      object_metadata := none, status := .deleted })])
          | none =>
            .ok ([canonical],
              [(address_owner,
                { object_id := id, object_type_tag := some object_type,
                  object_version := some version, object_bcs := some data,
                  object_metadata := none, status := .deleted })])

/-- Sequential processing of a list of entries, concatenating the pushed
records and aborting on the first provider error. -/
def process_list {E A : Type}
    (f : A → Except E (List ObjectChange × List (Option SuiAddress × ObjectChangeUpdate))) :
    List A → Except E (List ObjectChange × List (Option SuiAddress × ObjectChangeUpdate))
  | [] => .ok ([], [])
  | a :: rest =>
    match f a with
    | .error e => .error e
    | .ok (oc, coc) =>
      (process_list f rest).map (fun tail => (oc ++ tail.1, coc ++ tail.2))

/-- custom_get_object_changes of object_changes.rs. -/
def custom_get_object_changes {E : Type} (p : Provider E) (sender : SuiAddress)
    (modified_at_versions : List (ObjectID × SequenceNumber))
    (all_changed_objects : List (ObjectRef × Owner × WriteKind))
    (all_removed_objects : List (ObjectRef × ObjectRemoveKind))
    (input_objects output_objects : List Object) :
    Except E (List ObjectChange × List (Option SuiAddress × ObjectChangeUpdate)) :=
  let input_ownership_map := ownership_map input_objects
  let output_ownership_map := ownership_map output_objects
  let modify_at_version := modify_at_version_map modified_at_versions
  match process_list
      (process_changed_entry p sender input_ownership_map modify_at_version)
      all_changed_objects with
  | .error e => .error e
  | .ok changed =>
    match process_list
        (process_removed_entry p sender input_ownership_map output_ownership_map)
        all_removed_objects with
    | .error e => .error e
    | .ok removed => .ok (changed.1 ++ removed.1, changed.2 ++ removed.2)

/-- u64::MAX, the publisher's "expected index uninitialized" sentinel. -/
def U64_MAX : Nat := 2 ^ 64 - 1

/-- BTreeMap::get on the pending buffer, modelled as an association list
with unique keys (entry position is irrelevant: the queue only ever looks
entries up and removes them by key). -/
def bmap_lookup {V : Type} : List (Nat × V) → Nat → Option V
  | [], _ => none
  | (k', v) :: rest, k => if k' = k then some v else bmap_lookup rest k

/-- BTreeMap::remove. -/
def bmap_erase {V : Type} : List (Nat × V) → Nat → List (Nat × V)
  | [], _ => []
  | (k', v) :: rest, k =>
    if k' = k then bmap_erase rest k else (k', v) :: bmap_erase rest k

/-- BTreeMap entry(k) followed by or_insert(dflt) and an in-place update. -/
def bmap_entry_extend {V : Type} : List (Nat × V) → Nat → V → (V → V) → List (Nat × V)
  | [], k, dflt, f => [(k, f dflt)]
  | (k', v) :: rest, k, dflt, f =>
    if k' = k then (k', f v) :: rest
    else (k', v) :: bmap_entry_extend rest k dflt f

/-- State of the websocket channel of the publisher: the expected next
index (u64::MAX when uninitialized), the pending-batch buffer, and the
messages forwarded to the bus so far, in order. -/
structure WsChannelState (M : Type) where
  next_index : Nat
  bmap_checkpoints : List (Nat × List M)
  sent : List M
deriving DecidableEq

/-- The cached-batch drain loop of the ws task: while the buffer has an
entry for the expected index, remove it, forward its messages and
increment.  The loop of the source is bounded by the buffer size, so it
is modelled with fuel; fuel at least the buffer length is exact (see
ws_drain_fuel_irrelevant). -/
def ws_drain {M : Type} :
    Nat → List (Nat × List M) → Nat → List M → List (Nat × List M) × Nat × List M
  | 0, bmap, next, sent => (bmap, next, sent)
  | fuel + 1, bmap, next, sent =>
    match bmap_lookup bmap next with
    | none => (bmap, next, sent)
    | some next_checkpoint =>
      ws_drain fuel (bmap_erase bmap next) (next + 1) (sent ++ next_checkpoint)

/-- One receive of the ws task: initialize the expected index if needed;
forward and drain on a match, otherwise buffer the batch. -/
def ws_step {M : Type} (s : WsChannelState M) (batch : Nat × List M) : WsChannelState M :=
  let next0 := if s.next_index = U64_MAX then batch.1 else s.next_index
  if batch.1 = next0 then
    let r := ws_drain s.bmap_checkpoints.length s.bmap_checkpoints (next0 + 1)
      (s.sent ++ batch.2)
    { next_index := r.2.1, bmap_checkpoints := r.1, sent := r.2.2 }
  else
    { next_index := next0,
      bmap_checkpoints := bmap_entry_extend s.bmap_checkpoints batch.1 [] (· ++ batch.2),
      sent := s.sent }

def ws_init (M : Type) : WsChannelState M :=
  { next_index := U64_MAX, bmap_checkpoints := [], sent := [] }

def ws_run_from {M : Type} (s : WsChannelState M) (batches : List (Nat × List M)) :
    WsChannelState M :=
  batches.foldl ws_step s

def ws_run {M : Type} (batches : List (Nat × List M)) : WsChannelState M :=
  ws_run_from (ws_init M) batches

/-- State of the notifications channel: batches are inner BTreeMaps from
sequence number to notification lists, and each bus call publishes one
inner notification list. -/
structure NotifChannelState (N : Type) where
  next_index : Nat
  bmap_checkpoints : List (Nat × List (Nat × List N))
  sent : List (List N)
deriving DecidableEq

/-- Publishing a received batch map: one publish_sui_notifications call
per inner value, in map order. -/
def notif_publish {N : Type} (batch_map : List (Nat × List N)) : List (List N) :=
  batch_map.map (fun kv => kv.2)

/-- BTreeMap::extend of the received batch map into a buffered entry:
inner keys are inserted one by one, overwriting duplicates. -/
def btree_extend {N : Type} (old new : List (Nat × List N)) : List (Nat × List N) :=
  new.foldl (fun acc kv => bmap_entry_extend acc kv.1 kv.2 (fun _ => kv.2)) old

/-- The cached-batch drain loop of the notifications task.  The loop of
the source removes the cached entry for the expected index but then
iterates over `notifications` — the batch just received — so every drain
iteration re-publishes the received batch's values and the removed cached
entry is discarded unpublished. -/
def notif_drain {N : Type} (received : List (Nat × List N)) :
    Nat → List (Nat × List (Nat × List N)) → Nat → List (List N) →
      List (Nat × List (Nat × List N)) × Nat × List (List N)
  | 0, bmap, next, sent => (bmap, next, sent)
  | fuel + 1, bmap, next, sent =>
    match bmap_lookup bmap next with
    | none => (bmap, next, sent)
    | some _next_checkpoint =>
      notif_drain received fuel (bmap_erase bmap next) (next + 1)
        (sent ++ notif_publish received)

/-- One receive of the notifications task. -/
def notif_step {N : Type} (s : NotifChannelState N)
    (batch : Nat × List (Nat × List N)) : NotifChannelState N :=
  let next0 := if s.next_index = U64_MAX then batch.1 else s.next_index
  if batch.1 = next0 then
    let r := notif_drain batch.2 s.bmap_checkpoints.length s.bmap_checkpoints
      (next0 + 1) (s.sent ++ notif_publish batch.2)
    { next_index := r.2.1, bmap_checkpoints := r.1, sent := r.2.2 }
  else
    { next_index := next0,
      bmap_checkpoints :=
        bmap_entry_extend s.bmap_checkpoints batch.1 [] (fun old => btree_extend old batch.2),
      sent := s.sent }

def notif_init (N : Type) : NotifChannelState N :=
  { next_index := U64_MAX, bmap_checkpoints := [], sent := [] }

def notif_run_from {N : Type} (s : NotifChannelState N)
    (batches : List (Nat × List (Nat × List N))) : NotifChannelState N :=
  batches.foldl notif_step s

def notif_run {N : Type} (batches : List (Nat × List (Nat × List N))) :
    NotifChannelState N :=
  notif_run_from (notif_init N) batches

/-- State of ObjectProviderCache: the exact object cache and the
resolved-le cache, both keyed by (id, version). -/
structure CacheState where
  object_cache : ObjectID × SequenceNumber → Option Object
  last_version_cache : ObjectID × SequenceNumber → Option SequenceNumber

/-- ObjectProviderCache::new. -/
def cache_new : CacheState :=
  { object_cache := fun _ => none, last_version_cache := fun _ => none }

/-- One loop iteration of ObjectProviderCache::new_with_cache: insert
the written object into the exact cache under (id, ref version) and
update the resolved-le cache entry under the same key to the larger
version. -/
def new_with_cache_step (s : CacheState)
    (w : ObjectID × ObjectRef × Object × WriteKind) : CacheState :=
  match w with
  | (object_id, object_ref, object, _) =>
    let key := (object_id, object_ref.2.1)
    { object_cache := fun q => if q = key then some object else s.object_cache q,
      last_version_cache := fun q =>
        if q = key then
          match s.last_version_cache key with
          | some existing_seq_number =>
              some (if object_ref.2.1 > existing_seq_number then object_ref.2.1
                    else existing_seq_number)
          | none => some object_ref.2.1
        else s.last_version_cache q }

/-- ObjectProviderCache::new_with_cache: pre-populate both caches from
the written objects of a checkpoint. -/
def new_with_cache (written_objects : List (ObjectID × ObjectRef × Object × WriteKind)) :
    CacheState :=
  written_objects.foldl new_with_cache_step cache_new

/-- ObjectProviderCache::get_object: serve from the exact cache, else ask
the provider and memoize. -/
def cache_get_object {E : Type} (p : Provider E) (s : CacheState)
    (id : ObjectID) (version : SequenceNumber) : Except E Object × CacheState :=
  match s.object_cache (id, version) with
  | some o => (.ok o, s)
  | none =>
    match p.get_object id version with
    | .error e => (.error e, s)
    | .ok o =>
      (.ok o,
       { s with object_cache := fun q => if q = (id, version) then some o else s.object_cache q })

/-- ObjectProviderCache::find_object_lt_or_eq_version.  On a resolved-le
cache hit the code returns Ok(self.get_object(..).await.ok()): a failing
delegation is converted to Ok(None).  On a miss the provider's find is
consulted and both caches are updated. -/
def cache_find_object_lt_or_eq_version {E : Type} (p : Provider E) (s : CacheState)
    (id : ObjectID) (version : SequenceNumber) :
    Except E (Option Object) × CacheState :=
  match s.last_version_cache (id, version) with
  | some resolved =>
    let r := cache_get_object p s id resolved
    (.ok (match r.1 with
          | .ok o => some o
          | .error _ => none), r.2)
  | none =>
    match p.find_object_lt_or_eq_version id version with
    | .error e => (.error e, s)
    | .ok none => (.ok none, s)
    | .ok (some o) =>
      (.ok (some o),
       { object_cache := fun q => if q = (id, o.version) then some o else s.object_cache q,
         last_version_cache := fun q =>
           if q = (id, version) then some o.version else s.last_version_cache q })

/-- A client interaction with the cache: one of its two operations. -/
inductive CacheOp where
  | getObj (id : ObjectID) (version : SequenceNumber)
  | findLE (id : ObjectID) (version : SequenceNumber)

def cache_run_op {E : Type} (p : Provider E) (s : CacheState) : CacheOp → CacheState
  | .getObj id version => (cache_get_object p s id version).2
  | .findLE id version => (cache_find_object_lt_or_eq_version p s id version).2

def cache_run_ops {E : Type} (p : Provider E) (s : CacheState) (ops : List CacheOp) :
    CacheState :=
  ops.foldl (cache_run_op p) s

/-- Whether a Result / Except value is Ok. -/
def except_is_ok {ε α : Type} : Except ε α → Bool
  | .ok _ => true
  | .error _ => false

/-- Whether an optional owner entry is present and differs from the
given owner. -/
def owner_differs (entry : Option Owner) (owner : Owner) : Bool :=
  match entry with
  | some o => o != owner
  | none => false

/-- Spec-side per-record classification rule of section 4.5, written
from the specification's words: if the id appears in the input-owners
map and that owner differs from the record's owner, emit Created; else
if the id appears in the output-owners map and that owner differs,
emit Deleted; else emit the status found in the status map, whose
absence is a fatal programmer error. -/
def spec_classify_record {E : Type}
    (input_objects_to_owner output_objects_to_owner : ObjectID → Option Owner)
    (status_map : ObjectID → Option ObjectStatus) (bc : CustomBalanceChange) :
    Except (EngineError E) BalanceChangeWithStatus :=
  if owner_differs (input_objects_to_owner bc.object_id) bc.owner then
    .ok { object_id := bc.object_id, owner := bc.owner, coin_type := bc.coin_type,
          amount := bc.amount, status := .created }
  else if owner_differs (output_objects_to_owner bc.object_id) bc.owner then
    .ok { object_id := bc.object_id, owner := bc.owner, coin_type := bc.coin_type,
          amount := bc.amount, status := .deleted }
  else
    match status_map bc.object_id with
    | some st =>
      .ok { object_id := bc.object_id, owner := bc.owner, coin_type := bc.coin_type,
            amount := bc.amount, status := st }
    | none => .error .missingStatus

/-- Invariant of the resolved-le cache: every memoized resolution
(id, v) ↦ r is bounded (r ≤ v) and backed by an exact-cache entry at
(id, r) holding an object of version r. -/
def CacheInv (s : CacheState) : Prop :=
  ∀ id v r, s.last_version_cache (id, v) = some r →
    r ≤ v ∧ ∃ o, s.object_cache (id, r) = some o ∧ o.version = r

/-- Backing property of the caches: every resolved-le entry
(id, v) ↦ r has an exact-cache object stored under (id, r).  Both code
paths that write last_version_cache also write object_cache under the
resolved key, and nothing is ever removed, so this holds on every
reachable state with no side condition. -/
def CacheBacked (s : CacheState) : Prop :=
  ∀ id v r, s.last_version_cache (id, v) = some r →
    ∃ o, s.object_cache (id, r) = some o

/-- The provider contract assumed by the upper-bound claim: find only
returns objects with version at most the queried version. -/
def ProviderLEBound {E : Type} (p : Provider E) : Prop :=
  ∀ id v o, p.find_object_lt_or_eq_version id v = .ok (some o) → o.version ≤ v

/-- Consistency of a written-objects pre-population: each entry's
ObjectRef carries the version of the object it accompanies. -/
def WrittenConsistent (written : List (ObjectID × ObjectRef × Object × WriteKind)) : Prop :=
  ∀ w ∈ written, w.2.1.2.1 = w.2.2.1.version

/-- Shape of the caches built by new_with_cache: every resolved-le entry
is the identity resolution (id, v) ↦ v, backed by an exact-cache object
of that version. -/
def NewCacheInv (s : CacheState) : Prop :=
  ∀ id v r, s.last_version_cache (id, v) = some r →
    r = v ∧ ∃ o, s.object_cache (id, v) = some o ∧ o.version = v

/-- Tracking invariant for a message m of a late (already-flushed)
batch on the ws channel: the expected index is initialized, m has not
been forwarded, and m sits in the pending buffer only under keys below
the expected index; all buffered keys stay clear of the u64::MAX
sentinel. -/
def ws_inv {M : Type} (m : M) (s : WsChannelState M) : Prop :=
  s.next_index ≠ U64_MAX ∧ m ∉ s.sent ∧
    ∀ k l, bmap_lookup s.bmap_checkpoints k = some l →
      (m ∈ l → k < s.next_index) ∧ k + 1 < U64_MAX

/-- On the notifications channel a message is never forwarded as long
as no published batch list contains it. -/
def notif_sent_free {N : Type} (m : N) (s : NotifChannelState N) : Prop :=
  ∀ l ∈ s.sent, m ∉ l

/-- Provider whose every call fails (used by fast-path scenarios that
must not touch the provider). -/
def err_provider : Provider Unit :=
  { get_object := fun _ _ => .error (),
    find_object_lt_or_eq_version := fun _ _ => .error () }

/-- Provider whose every call fails with error 7: if the cache answers
Ok against this provider, no provider call can have been made. -/
def c2w_provider : Provider Nat :=
  { get_object := fun _ _ => .error 7,
    find_object_lt_or_eq_version := fun _ _ => .error 7 }

/-- Written object pre-populating the cache for the hit-path scenario
(the object version is deliberately unrelated to the ref version: the
backing property needs no consistency). -/
def c2_obj : Object :=
  { id := 1, version := 8, digest := 0, owner := .immutable,
    data := .moveObject { type_ := .otherStruct 0, contents := [] } }

def c2_written : List (ObjectID × ObjectRef × Object × WriteKind) :=
  [(1, (1, 5, 0), c2_obj, .mutate)]

/-- Prior version of the removed object of the ownership-transfer
scenario: id 10, version 4, owned by address 100. -/
def c3_prev_object : Object :=
  { id := 10, version := 4, digest := 0, owner := .addressOwner 100,
    data := .moveObject { type_ := .otherStruct 0, contents := [7] } }

/-- Input snapshot of object 10: owner is address 100 (the sender side
of the transfer). -/
def c3_input_object : Object :=
  { id := 10, version := 4, digest := 0, owner := .addressOwner 100,
    data := .moveObject { type_ := .otherStruct 0, contents := [7] } }

/-- Output snapshot of object 10: owner is address 200 (the receiver
side of the transfer). -/
def c3_output_object : Object :=
  { id := 10, version := 5, digest := 1, owner := .addressOwner 200,
    data := .moveObject { type_ := .otherStruct 0, contents := [8] } }

/-- Provider resolving the removed object (10, ≤ 5) to its prior
version. -/
def c3_provider : Provider Unit :=
  { get_object := fun _ _ => .error (),
    find_object_lt_or_eq_version := fun id v =>
      if id = 10 ∧ v = 5 then .ok (some c3_prev_object) else .ok none }

/-- Input coin of scenario S1: id 1 version 1, owner address 50,
SUI coin of balance 100. -/
def c5_coin_in : Object :=
  { id := 1, version := 1, digest := 0, owner := .addressOwner 50,
    data := .moveObject { type_ := .coinStruct .sui, contents := coin_contents 100 } }

/-- Output coin of scenario S1: same coin at version 2, balance 40. -/
def c5_coin_out : Object :=
  { id := 1, version := 2, digest := 0, owner := .addressOwner 50,
    data := .moveObject { type_ := .coinStruct .sui, contents := coin_contents 40 } }

/-- Provider serving the S1 coin at its two versions. -/
def c5_provider : Provider Unit :=
  { get_object := fun id v =>
      if id = 1 ∧ v = 1 then .ok c5_coin_in
      else if id = 1 ∧ v = 2 then .ok c5_coin_out
      else .error (),
    find_object_lt_or_eq_version := fun _ _ => .ok none }

/-- Failed transaction with net gas usage 7 and non-empty object lists
(scenario S3). -/
def c6_effects : TransactionEffects :=
  { gas_object := ((3, 1, 2), .addressOwner 9),
    status := .failure,
    net_gas_usage := 7,
    modified_at_versions := [(1, 1)],
    all_changed_objects := [((1, 2, 0), .addressOwner 9, .mutate)],
    all_removed_objects := [((4, 1, 0), .delete)],
    unwrapped_then_deleted := [] }

/-- Non-coin object with digest 5, fetched against a supplied digest 7. -/
def c7_noncoin : Object :=
  { id := 1, version := 1, digest := 5, owner := .addressOwner 4,
    data := .moveObject { type_ := .otherStruct 0, contents := [1, 2] } }

def c7_provider : Provider Unit :=
  { get_object := fun id v => if id = 1 ∧ v = 1 then .ok c7_noncoin else .error (),
    find_object_lt_or_eq_version := fun _ _ => .ok none }

/-- Coin object with digest 5, fetched against a supplied digest 9. -/
def c7w_coin : Object :=
  { id := 2, version := 1, digest := 5, owner := .addressOwner 4,
    data := .moveObject { type_ := .coinStruct .sui, contents := coin_contents 3 } }

def c7w_provider : Provider Unit :=
  { get_object := fun id v => if id = 2 ∧ v = 1 then .ok c7w_coin else .error (),
    find_object_lt_or_eq_version := fun _ _ => .ok none }

/-- A per-object accumulated record used to exercise the classifier. -/
def c8_record : CustomBalanceChange :=
  { object_id := 1, owner := .addressOwner 50, coin_type := .sui, amount := 5 }

/-- Written object whose ObjectRef version (5) disagrees with the
object's own version (99). -/
def c9_bad_object : Object :=
  { id := 1, version := 99, digest := 0, owner := .immutable,
    data := .moveObject { type_ := .otherStruct 0, contents := [] } }

def c9_written : List (ObjectID × ObjectRef × Object × WriteKind) :=
  [(1, (1, 5, 0), c9_bad_object, .mutate)]

/-- Provider that never finds anything, so it trivially satisfies the
find upper bound. -/
def c9_provider : Provider Unit :=
  { get_object := fun _ _ => .error (),
    find_object_lt_or_eq_version := fun _ _ => .ok none }

/-- Version-0 object, always a sound answer for a find query. -/
def c9_zero_object : Object :=
  { id := 2, version := 0, digest := 0, owner := .immutable,
    data := .moveObject { type_ := .otherStruct 0, contents := [] } }

def c9w_provider : Provider Unit :=
  { get_object := fun _ _ => .error (),
    find_object_lt_or_eq_version := fun _ _ => .ok (some c9_zero_object) }

/-- Coin object 1 at version 1, balance 100 (input side of the
zero-net scenario). -/
def c10_coin_v1 : Object :=
  { id := 1, version := 1, digest := 0, owner := .addressOwner 50,
    data := .moveObject { type_ := .coinStruct .sui, contents := coin_contents 100 } }

/-- The same coin at version 2, balance still 100 (output side). -/
def c10_coin_v2 : Object :=
  { id := 1, version := 2, digest := 0, owner := .addressOwner 50,
    data := .moveObject { type_ := .coinStruct .sui, contents := coin_contents 100 } }

def c10_provider : Provider Unit :=
  { get_object := fun id v =>
      if id = 1 ∧ v = 1 then .ok c10_coin_v1
      else if id = 1 ∧ v = 2 then .ok c10_coin_v2
      else .error (),
    find_object_lt_or_eq_version := fun _ _ => .ok none }

/-- Successful transaction touching only coin 1, with zero net gas. -/
def c10_effects : TransactionEffects :=
  { gas_object := ((3, 1, 0), .addressOwner 9),
    status := .success,
    net_gas_usage := 0,
    modified_at_versions := [(1, 1)],
    all_changed_objects := [((1, 2, 0), .addressOwner 50, .mutate)],
    all_removed_objects := [],
    unwrapped_then_deleted := [] }

end Sui


namespace Sui

/-- Claim C1 (code bug witnessed): on the gap-fill input
(5, a), (7, c), (6, b), (8, d) with initial index 5, the ws channel
forwards exactly a, b, c, d in order and nothing of c right after the
second input; the notifications channel, whose drain loop iterates the
received batch instead of the removed cached one, forwards a, b, b, d —
not the a, b, c, d the claim states for both channels. -/
theorem C1_gap_fill :
    (ws_run [(5, [1]), (7, [3]), (6, [2]), (8, [4])]).sent = [1, 2, 3, 4] ∧
    (ws_run [(5, [1]), (7, [3])]).sent = [1] ∧
    (notif_run [(5, [(0, [1])]), (7, [(0, [3])]), (6, [(0, [2])]), (8, [(0, [4])])]).sent
      = [[1], [2], [2], [4]] ∧
    (notif_run [(5, [(0, [1])]), (7, [(0, [3])]), (6, [(0, [2])]), (8, [(0, [4])])]).sent
      ≠ [[1], [2], [3], [4]] :=
  ⟨by decide, by decide, by decide, by decide⟩

/-- Claim C3 (code bug witnessed): a removed object with input owner 100
and output owner 200 is emitted with status Sent whose sender field is
the output owner 200 (sender = receiver = 200), routed to the input
owner 100 — not Sent{input owner 100 → output owner 200} as the claim
states. -/
theorem C3_removed_transfer :
    custom_get_object_changes c3_provider 99 [] [] [((10, 5, 0), .delete)]
        [c3_input_object] [c3_output_object]
      = .ok ([ObjectChange.deleted 99 (.otherStruct 0) 10 5],
             [(some 100,
               { object_id := 10, object_type_tag := some (.otherStruct 0),
                 object_version := some 5, object_bcs := some [7],
                 object_metadata := none,
                 status := .sent { sender_address := 200, receiver_address := 200 } })])
      ∧ (200 : SuiAddress) ≠ 100 :=
  ⟨rfl, by decide⟩

/-- Claim C6: for every effects whose status is not Success, with net
gas usage G, the plain engine returns exactly (gas-owner, GAS, −G) and
the extended engine exactly (gas-owner, GAS, −G, gas-object-id, Mutated),
for every provider and regardless of the object lists. -/
theorem C6_failure_fast_path {E : Type} (p : Provider E) (effects : TransactionEffects)
    (input_objs : List InputObjectKind) (mocked_coin : Option ObjectID)
    (status_map : ObjectID → Option ObjectStatus)
    (imap omap : ObjectID → Option Owner)
    (h : effects.status ≠ .success) :
    get_balance_changes_from_effect p effects input_objs mocked_coin =
      .ok [{ owner := effects.gas_object.2, coin_type := GAS_type_tag,
             amount := -effects.net_gas_usage }] ∧
    get_balance_changes_with_status_from_effect p effects input_objs mocked_coin
        status_map imap omap =
      .ok [{ owner := effects.gas_object.2, coin_type := GAS_type_tag,
             amount := -effects.net_gas_usage,
             object_id := effects.gas_object.1.1, status := .mutated }] := by
  constructor <;>
    simp [get_balance_changes_from_effect, get_balance_changes_with_status_from_effect, h]

/-- Witness for C6 at a concrete failed transaction with gas 7. -/
theorem C6_failure_fast_path_witness :
    get_balance_changes_from_effect err_provider c6_effects [] none =
      .ok [{ owner := .addressOwner 9, coin_type := GAS_type_tag, amount := -7 }] ∧
    get_balance_changes_with_status_from_effect err_provider c6_effects [] none
        (fun _ => none) (fun _ => none) (fun _ => none) =
      .ok [{ owner := .addressOwner 9, coin_type := GAS_type_tag, amount := -7,
             object_id := 3, status := .mutated }] :=
  C6_failure_fast_path err_provider c6_effects [] none _ _ _ (by decide)

/-- Claim C5: when the input side resolves to exactly one coin of
balance A and the output side to exactly one coin of balance B under the
same (owner, coin-type), get_balance_changes emits the single record
B − A when B differs from A and nothing when B equals A. -/
theorem C5_single_coin_conservation {E : Type} (p : Provider E)
    (modified mutated : List ObjectEntry) (own : Owner) (t : TypeTag) (A B : Nat)
    (h1 : fetch_coins p modified = .ok [(own, t, A)])
    (h2 : fetch_coins p mutated = .ok [(own, t, B)]) :
    get_balance_changes p modified mutated =
      .ok (if B = A then []
           else [{ owner := own, coin_type := t, amount := (B : Int) - (A : Int) }]) := by
  unfold get_balance_changes
  rw [h1, h2]
  simp [acc_update, neg_add_eq_sub, sub_eq_zero]
  by_cases hba : B = A
  · subst hba; simp
  · rw [if_neg hba, List.filterMap_cons]
    rw [if_neg (by simpa [sub_eq_zero] using fun h => hba (Nat.cast_injective h))]
    simp

/-- Witness for C5 on scenario S1: input balance 100, output balance 40,
yielding the single record of amount −60. -/
theorem C5_witness :
    fetch_coins c5_provider [(1, 1, none)] = .ok [(.addressOwner 50, .sui, 100)] ∧
    fetch_coins c5_provider [(1, 2, none)] = .ok [(.addressOwner 50, .sui, 40)] ∧
    get_balance_changes c5_provider [(1, 1, none)] [(1, 2, none)] =
      .ok [{ owner := .addressOwner 50, coin_type := .sui, amount := 40 - 100 }] :=
  ⟨rfl, rfl,
   by rw [C5_single_coin_conservation c5_provider [(1, 1, none)] [(1, 2, none)]
        (.addressOwner 50) .sui 100 40 rfl rfl]; rfl⟩

/-- Claim C10: the extended accumulator does not filter zero-net keys —
a coin whose subtracted input balance equals its added output balance
yields a CustomBalanceChange with amount 0, and that record flows into
the output of get_balance_changes_with_status_from_effect. -/
theorem C10_zero_net_kept {E : Type} (p : Provider E) (effects : TransactionEffects)
    (input_objs : List InputObjectKind) (mocked_coin : Option ObjectID)
    (status_map : ObjectID → Option ObjectStatus) (imap omap : ObjectID → Option Owner)
    (own : Owner) (t : TypeTag) (i : ObjectID) (A : Nat) (st : ObjectStatus)
    (hst : effects.status = .success)
    (h1 : custom_fetch_coins p (effect_modified_entries effects input_objs mocked_coin)
            = .ok [(own, t, i, A)])
    (h2 : custom_fetch_coins p (effect_mutated_entries effects mocked_coin)
            = .ok [(own, t, i, A)])
    (himap : imap i = some own) (homap : omap i = some own)
    (hsmap : status_map i = some st) :
    custom_get_balance_changes p (effect_modified_entries effects input_objs mocked_coin)
        (effect_mutated_entries effects mocked_coin)
      = .ok [{ object_id := i, owner := own, coin_type := t, amount := 0 }] ∧
    get_balance_changes_with_status_from_effect p effects input_objs mocked_coin
        status_map imap omap
      = .ok [{ owner := own, coin_type := t, amount := 0, object_id := i, status := st },
             gas_with_status_record effects] := by
  have hcustom : custom_get_balance_changes p
      (effect_modified_entries effects input_objs mocked_coin)
      (effect_mutated_entries effects mocked_coin)
      = .ok [{ object_id := i, owner := own, coin_type := t, amount := 0 }] := by
    unfold custom_get_balance_changes
    rw [h1, h2]
    simp [acc_update]
  refine ⟨hcustom, ?_⟩
  unfold get_balance_changes_with_status_from_effect
  rw [hcustom]
  simp [hst, classify_all, himap, homap, hsmap, Except.map]

/-- Witness for C10: a coin of balance 100 on both sides produces an
amount-0 record that appears in the extended engine output. -/
theorem C10_witness :
    custom_fetch_coins c10_provider (effect_modified_entries c10_effects [] none)
      = .ok [(.addressOwner 50, .sui, 1, 100)] ∧
    get_balance_changes_with_status_from_effect c10_provider c10_effects [] none
        (fun q => if q = 1 then some .mutated else none)
        (fun q => if q = 1 then some (.addressOwner 50) else none)
        (fun q => if q = 1 then some (.addressOwner 50) else none)
      = .ok [{ owner := .addressOwner 50, coin_type := .sui, amount := 0,
               object_id := 1, status := .mutated },
             { owner := .addressOwner 9, coin_type := .bool, amount := 0,
               object_id := 3, status := .mutated }] :=
  ⟨rfl,
   (C10_zero_net_kept c10_provider c10_effects [] none
      (fun q => if q = 1 then some .mutated else none)
      (fun q => if q = 1 then some (.addressOwner 50) else none)
      (fun q => if q = 1 then some (.addressOwner 50) else none)
      (.addressOwner 50) .sui 1 100 .mutated rfl rfl rfl rfl rfl rfl).2⟩

/-- Counterexample to C7 as stated: a non-coin object fetched with
digest 5 against a supplied digest 7 is accepted — both engines return
Ok, because the digest assertion is only evaluated for coins. -/
theorem C7_counterexample :
    c7_provider.get_object 1 1 = .ok c7_noncoin ∧
    c7_noncoin.digest = 5 ∧ ((5 : ObjectDigest) ≠ 7) ∧
    fetch_coins c7_provider [(1, 1, some 7)] = .ok [] ∧
    custom_fetch_coins c7_provider [(1, 1, some 7)] = .ok [] :=
  ⟨rfl, rfl, by decide, rfl, rfl⟩

theorem fetch_coins_cons_not_ok {E : Type} (p : Provider E) (e : ObjectEntry)
    (rest : List ObjectEntry)
    (h : except_is_ok (fetch_coins p rest) = false) :
    except_is_ok (fetch_coins p (e :: rest)) = false := by
  obtain ⟨i, v, dopt⟩ := e
  simp only [fetch_coins]
  split
  · rfl
  · split
    · exact h
    · split
      · split
        · split
          · cases hr : fetch_coins p rest with
            | error err => simp [Except.map, hr, except_is_ok]
            | ok val => rw [hr] at h; simp [except_is_ok] at h
          · rfl
        · rfl
      · exact h

theorem custom_fetch_coins_cons_not_ok {E : Type} (p : Provider E) (e : ObjectEntry)
    (rest : List ObjectEntry)
    (h : except_is_ok (custom_fetch_coins p rest) = false) :
    except_is_ok (custom_fetch_coins p (e :: rest)) = false := by
  obtain ⟨i, v, dopt⟩ := e
  simp only [custom_fetch_coins]
  split
  · rfl
  · split
    · exact h
    · split
      · split
        · split
          · cases hr : custom_fetch_coins p rest with
            | error err => simp [Except.map, hr, except_is_ok]
            | ok val => rw [hr] at h; simp [except_is_ok] at h
          · rfl
        · rfl
      · exact h

/-- Claim C7 amended: for every entry (id, version, Some digest) whose
fetched object is a coin with a different digest, both fetch_coins and
custom_fetch_coins fail (never return Ok). -/
theorem C7_amended {E : Type} (p : Provider E) (objects : List ObjectEntry)
    (id : ObjectID) (version : SequenceNumber) (d : ObjectDigest) (o : Object) (t : TypeTag)
    (hmem : (id, version, some d) ∈ objects)
    (hget : p.get_object id version = .ok o)
    (htype : o.type_ = some t) (hcoin : t.is_coin = true)
    (hdig : o.digest ≠ d) :
    except_is_ok (fetch_coins p objects) = false ∧
    except_is_ok (custom_fetch_coins p objects) = false := by
  induction objects with
  | nil => cases hmem
  | cons e rest ih =>
    rcases List.mem_cons.mp hmem with he | hrest
    · have hbeq : (d == o.digest) = false := beq_eq_false_iff_ne.mpr (Ne.symm hdig)
      subst he
      constructor
      · simp [fetch_coins, hget, htype, hcoin, hbeq, except_is_ok]
      · simp [custom_fetch_coins, hget, htype, hcoin, hbeq, except_is_ok]
    · obtain ⟨ihf, ihc⟩ := ih hrest
      exact ⟨fetch_coins_cons_not_ok p e rest ihf,
             custom_fetch_coins_cons_not_ok p e rest ihc⟩

/-- Witness for the amended C7: a coin of digest 5 fetched against a
supplied digest 9 makes both engines fail. -/
theorem C7_amended_witness :
    except_is_ok (fetch_coins c7w_provider [(2, 1, some 9)]) = false ∧
    except_is_ok (custom_fetch_coins c7w_provider [(2, 1, some 9)]) = false :=
  C7_amended c7w_provider [(2, 1, some 9)] 2 1 9 c7w_coin (.coinStruct .sui)
    (by simp) rfl rfl rfl (by decide)

theorem owner_differs_eq_true_iff (e : Option Owner) (own : Owner) :
    owner_differs e own = true ↔ (e.isSome ∧ e ≠ some own) := by
  cases e <;> simp [owner_differs]

/-- Claim C8: on a successful transaction the extended engine classifies
every accumulated record, in order, by the input-owners map (Created),
then the output-owners map (Deleted), then the status map, whose absence
is the fatal missing-status error; formally the for_each of the source
equals mapping the spec-side per-record rule, and the success path is
exactly accumulate, classify, append gas. -/
theorem C8_classification_order {E : Type}
    (imap omap : ObjectID → Option Owner) (smap : ObjectID → Option ObjectStatus) :
    (∀ (p : Provider E) (effects : TransactionEffects)
        (input_objs : List InputObjectKind) (mocked_coin : Option ObjectID),
      effects.status = .success →
      get_balance_changes_with_status_from_effect p effects input_objs mocked_coin
          smap imap omap =
        match custom_get_balance_changes p
            (effect_modified_entries effects input_objs mocked_coin)
            (effect_mutated_entries effects mocked_coin) with
        | .error e => .error e
        | .ok bcs =>
          match classify_all imap omap smap bcs with
          | .error e => .error e
          | .ok outs => .ok (outs ++ [gas_with_status_record effects])) ∧
    (∀ bcs, classify_all (E := E) imap omap smap bcs
        = bcs.mapM (spec_classify_record imap omap smap)) := by
  constructor
  · intro p effects input_objs mocked_coin hst
    simp [get_balance_changes_with_status_from_effect, hst]
  · intro bcs
    induction bcs with
    | nil => rw [List.mapM_nil]; rfl
    | cons bc rest ih =>
      rw [List.mapM_cons]
      dsimp only [classify_all]
      cases hi : imap bc.object_id with
      | some oldo =>
        by_cases he : oldo = bc.owner
        · rw [if_neg (by simp [hi, he])]
          cases ho : omap bc.object_id with
          | some oldo2 =>
            by_cases he2 : oldo2 = bc.owner
            · rw [if_neg (by simp [ho, he2])]
              have hspec : spec_classify_record (E := E) imap omap smap bc
                  = (match smap bc.object_id with
                     | some st =>
                       .ok { object_id := bc.object_id, owner := bc.owner,
                             coin_type := bc.coin_type, amount := bc.amount, status := st }
                     | none => .error .missingStatus) := by
                simp [spec_classify_record, owner_differs, hi, ho, he, he2]
              rw [hspec]
              cases hs : smap bc.object_id with
              | some st =>
                rw [ih]
                cases hm : rest.mapM (spec_classify_record imap omap smap) <;> rfl
              | none => rfl
            · rw [if_pos ⟨by simp [ho], by simp [ho, he2]⟩]
              have hspec : spec_classify_record (E := E) imap omap smap bc
                  = .ok { object_id := bc.object_id, owner := bc.owner,
                          coin_type := bc.coin_type, amount := bc.amount,
                          status := .deleted } := by
                simp [spec_classify_record, owner_differs, hi, ho, he, he2]
              rw [hspec, ih]
              cases hm : rest.mapM (spec_classify_record imap omap smap) <;> rfl
          | none =>
            rw [if_neg (by simp [ho])]
            have hspec : spec_classify_record (E := E) imap omap smap bc
                = (match smap bc.object_id with
                   | some st =>
                     .ok { object_id := bc.object_id, owner := bc.owner,
                           coin_type := bc.coin_type, amount := bc.amount, status := st }
                   | none => .error .missingStatus) := by
              simp [spec_classify_record, owner_differs, hi, ho, he]
            rw [hspec]
            cases hs : smap bc.object_id with
            | some st =>
              rw [ih]
              cases hm : rest.mapM (spec_classify_record imap omap smap) <;> rfl
            | none => rfl
        · rw [if_pos ⟨by simp [hi], by simp [hi, he]⟩]
          have hspec : spec_classify_record (E := E) imap omap smap bc
              = .ok { object_id := bc.object_id, owner := bc.owner,
                      coin_type := bc.coin_type, amount := bc.amount,
                      status := .created } := by
            simp [spec_classify_record, owner_differs, hi, he]
          rw [hspec, ih]
          cases hm : rest.mapM (spec_classify_record imap omap smap) <;> rfl
      | none =>
        rw [if_neg (by simp [hi])]
        cases ho : omap bc.object_id with
        | some oldo2 =>
          by_cases he2 : oldo2 = bc.owner
          · rw [if_neg (by simp [ho, he2])]
            have hspec : spec_classify_record (E := E) imap omap smap bc
                = (match smap bc.object_id with
                   | some st =>
                     .ok { object_id := bc.object_id, owner := bc.owner,
                           coin_type := bc.coin_type, amount := bc.amount, status := st }
                   | none => .error .missingStatus) := by
              simp [spec_classify_record, owner_differs, hi, ho, he2]
            rw [hspec]
            cases hs : smap bc.object_id with
            | some st =>
              rw [ih]
              cases hm : rest.mapM (spec_classify_record imap omap smap) <;> rfl
            | none => rfl
          · rw [if_pos ⟨by simp [ho], by simp [ho, he2]⟩]
            have hspec : spec_classify_record (E := E) imap omap smap bc
                = .ok { object_id := bc.object_id, owner := bc.owner,
                        coin_type := bc.coin_type, amount := bc.amount,
                        status := .deleted } := by
              simp [spec_classify_record, owner_differs, hi, ho, he2]
            rw [hspec, ih]
            cases hm : rest.mapM (spec_classify_record imap omap smap) <;> rfl
        | none =>
          rw [if_neg (by simp [ho])]
          have hspec : spec_classify_record (E := E) imap omap smap bc
              = (match smap bc.object_id with
                 | some st =>
                   .ok { object_id := bc.object_id, owner := bc.owner,
                         coin_type := bc.coin_type, amount := bc.amount, status := st }
                 | none => .error .missingStatus) := by
            simp [spec_classify_record, owner_differs, hi, ho]
          rw [hspec]
          cases hs : smap bc.object_id with
          | some st =>
            rw [ih]
            cases hm : rest.mapM (spec_classify_record imap omap smap) <;> rfl
          | none => rfl

theorem cacheInv_cache_new : CacheInv cache_new := by
  intro id v r h
  simp [cache_new] at h

theorem newCacheInv_step (s : CacheState) (w : ObjectID × ObjectRef × Object × WriteKind)
    (hcons : w.2.1.2.1 = w.2.2.1.version) (h : NewCacheInv s) :
    NewCacheInv (new_with_cache_step s w) := by
  obtain ⟨object_id, object_ref, object, kind⟩ := w
  simp only at hcons
  intro i v r hl
  simp only [new_with_cache_step] at hl ⊢
  by_cases hk : ((i, v) : ObjectID × SequenceNumber) = (object_id, object_ref.2.1)
  · rw [if_pos hk] at hl
    rw [Prod.mk.injEq] at hk
    obtain ⟨hi, hv⟩ := hk
    subst hi
    subst hv
    have hrv : r = object_ref.2.1 := by
      rcases hold : s.last_version_cache (i, object_ref.2.1) with _ | ex
      · rw [hold] at hl
        injection hl with hl2
        exact hl2.symm
      · rw [hold] at hl
        have hex : ex = object_ref.2.1 := (h i object_ref.2.1 ex hold).1
        subst hex
        simp only [lt_irrefl, gt_iff_lt, if_neg (lt_irrefl _)] at hl
        injection hl with hl2
        exact hl2.symm
    subst hrv
    exact ⟨rfl, object, by rw [if_pos rfl], hcons.symm⟩
  · rw [if_neg hk] at hl
    obtain ⟨hr, o, ho, hov⟩ := h i v r hl
    exact ⟨hr, o, by rw [if_neg hk]; exact ho, hov⟩

theorem newCacheInv_foldl (w : List (ObjectID × ObjectRef × Object × WriteKind)) :
    ∀ (s : CacheState), NewCacheInv s → (∀ e ∈ w, e.2.1.2.1 = e.2.2.1.version) →
      NewCacheInv (w.foldl new_with_cache_step s) := by
  induction w with
  | nil => intro s hs _; exact hs
  | cons e rest ih =>
    intro s hs hw
    rw [List.foldl_cons]
    exact ih (new_with_cache_step s e)
      (newCacheInv_step s e (hw e (List.mem_cons_self e rest)) hs)
      (fun x hx => hw x (List.mem_cons_of_mem e hx))

theorem cacheInv_new_with_cache (w : List (ObjectID × ObjectRef × Object × WriteKind))
    (hw : WrittenConsistent w) : CacheInv (new_with_cache w) := by
  have hnew : NewCacheInv (new_with_cache w) := by
    unfold new_with_cache
    refine newCacheInv_foldl w cache_new ?_ hw
    intro id v r h
    simp [cache_new] at h
  intro id v r hl
  obtain ⟨hr, o, ho, hov⟩ := hnew id v r hl
  subst hr
  exact ⟨le_refl _, o, ho, hov⟩

theorem cache_get_object_preserves {E : Type} (p : Provider E) (s : CacheState)
    (id : ObjectID) (version : SequenceNumber) (h : CacheInv s) :
    CacheInv (cache_get_object p s id version).2 := by
  unfold cache_get_object
  cases hc : s.object_cache (id, version) with
  | some o => exact h
  | none =>
    cases hg : p.get_object id version with
    | error e => exact h
    | ok o =>
      intro i v r hl
      obtain ⟨hr, o2, ho2, hov⟩ := h i v r hl
      refine ⟨hr, ?_⟩
      by_cases hk : ((i, r) : ObjectID × SequenceNumber) = (id, version)
      · rw [hk] at ho2
        rw [ho2] at hc
        cases hc
      · exact ⟨o2, by simp only [if_neg hk]; exact ho2, hov⟩

theorem cache_get_object_hit {E : Type} (p : Provider E) (s : CacheState)
    (idq : ObjectID) (rv : SequenceNumber) (o2 : Object)
    (ho2 : s.object_cache (idq, rv) = some o2) :
    cache_get_object p s idq rv = (.ok o2, s) := by
  unfold cache_get_object
  rw [ho2]

theorem cache_find_hit_result {E : Type} (p : Provider E) (s : CacheState)
    (idq : ObjectID) (vq : SequenceNumber) (resolved : SequenceNumber) (o2 : Object)
    (hl : s.last_version_cache (idq, vq) = some resolved)
    (ho2 : s.object_cache (idq, resolved) = some o2) :
    (cache_find_object_lt_or_eq_version p s idq vq).1 = .ok (some o2) := by
  unfold cache_find_object_lt_or_eq_version
  rw [hl]
  dsimp only
  rw [cache_get_object_hit p s idq resolved o2 ho2]

theorem cache_find_miss_result {E : Type} (p : Provider E) (s : CacheState)
    (idq : ObjectID) (vq : SequenceNumber) (res : Except E (Option Object))
    (hl : s.last_version_cache (idq, vq) = none)
    (hf : p.find_object_lt_or_eq_version idq vq = res) :
    (cache_find_object_lt_or_eq_version p s idq vq).1 = res := by
  unfold cache_find_object_lt_or_eq_version
  rw [hl, hf]
  cases res with
  | error e => rfl
  | ok oo => cases oo <;> rfl

theorem cache_find_preserves {E : Type} (p : Provider E) (hp : ProviderLEBound p)
    (s : CacheState) (idq : ObjectID) (vq : SequenceNumber) (h : CacheInv s) :
    CacheInv (cache_find_object_lt_or_eq_version p s idq vq).2 := by
  unfold cache_find_object_lt_or_eq_version
  cases hl : s.last_version_cache (idq, vq) with
  | some resolved =>
    exact cache_get_object_preserves p s idq resolved h
  | none =>
    cases hf : p.find_object_lt_or_eq_version idq vq with
    | error e => exact h
    | ok oo =>
      cases oo with
      | none => exact h
      | some o =>
        intro i v r hlv
        have hlv' : (if ((i, v) : ObjectID × SequenceNumber) = (idq, vq)
            then some o.version else s.last_version_cache (i, v)) = some r := hlv
        by_cases hk : ((i, v) : ObjectID × SequenceNumber) = (idq, vq)
        · rw [if_pos hk] at hlv'
          injection hlv' with hrv
          rw [Prod.mk.injEq] at hk
          obtain ⟨hi, hv⟩ := hk
          subst hi
          subst hv
          subst hrv
          refine ⟨hp i v o hf, o, ?_, rfl⟩
          show (if ((i, o.version) : ObjectID × SequenceNumber) = (i, o.version)
              then some o else s.object_cache (i, o.version)) = some o
          rw [if_pos rfl]
        · rw [if_neg hk] at hlv'
          obtain ⟨hr, o2, ho2, hov⟩ := h i v r hlv'
          refine ⟨hr, ?_⟩
          by_cases hk2 : ((i, r) : ObjectID × SequenceNumber) = (idq, o.version)
          · refine ⟨o, ?_, ?_⟩
            · show (if ((i, r) : ObjectID × SequenceNumber) = (idq, o.version)
                  then some o else s.object_cache (i, r)) = some o
              rw [if_pos hk2]
            · rw [Prod.mk.injEq] at hk2
              exact hk2.2.symm
          · refine ⟨o2, ?_, hov⟩
            show (if ((i, r) : ObjectID × SequenceNumber) = (idq, o.version)
                then some o else s.object_cache (i, r)) = some o2
            rw [if_neg hk2]
            exact ho2

theorem cache_run_ops_preserves {E : Type} (p : Provider E) (hp : ProviderLEBound p)
    (ops : List CacheOp) :
    ∀ (s : CacheState), CacheInv s → CacheInv (cache_run_ops p s ops) := by
  induction ops with
  | nil => intro s hs; exact hs
  | cons op rest ih =>
    intro s hs
    rw [cache_run_ops, List.foldl_cons]
    refine ih _ ?_
    cases op with
    | getObj i v => exact cache_get_object_preserves p s i v hs
    | findLE i v => exact cache_find_preserves p hp s i v hs

theorem cache_find_version_le {E : Type} (p : Provider E) (hp : ProviderLEBound p)
    (s : CacheState) (idq : ObjectID) (vq : SequenceNumber) (o : Object)
    (hinv : CacheInv s)
    (hfind : (cache_find_object_lt_or_eq_version p s idq vq).1 = .ok (some o)) :
    o.version ≤ vq := by
  cases hl : s.last_version_cache (idq, vq) with
  | some resolved =>
    obtain ⟨hr, o2, ho2, hov⟩ := hinv idq vq resolved hl
    rw [cache_find_hit_result p s idq vq resolved o2 hl ho2] at hfind
    injection hfind with h1
    injection h1 with h2
    rw [← h2, hov]
    exact hr
  | none =>
    cases hf : p.find_object_lt_or_eq_version idq vq with
    | error e =>
      rw [cache_find_miss_result p s idq vq _ hl hf] at hfind
      cases hfind
    | ok oo =>
      rw [cache_find_miss_result p s idq vq _ hl hf] at hfind
      cases oo with
      | none =>
        injection hfind with h1
        cases h1
      | some o2 =>
        injection hfind with h1
        injection h1 with h2
        rw [← h2]
        exact hp idq vq o2 hf

/-- Claim C9 amended: assuming the provider find upper bound and that
every pre-populated written_objects entry carries the version of its
object, every find_object_lt_or_eq_version query against any state
reachable from new or new_with_cache by cache operations returns an
object of version at most the queried version. -/
theorem C9_amended {E : Type} (p : Provider E) (hp : ProviderLEBound p) (s0 : CacheState)
    (h0 : s0 = cache_new ∨ ∃ w, WrittenConsistent w ∧ s0 = new_with_cache w)
    (ops : List CacheOp) (id : ObjectID) (version : SequenceNumber) (o : Object)
    (hfind : (cache_find_object_lt_or_eq_version p (cache_run_ops p s0 ops) id version).1
              = .ok (some o)) :
    o.version ≤ version := by
  have hinv0 : CacheInv s0 := by
    rcases h0 with rfl | ⟨w, hw, rfl⟩
    · exact cacheInv_cache_new
    · exact cacheInv_new_with_cache w hw
  exact cache_find_version_le p hp _ id version o
    (cache_run_ops_preserves p hp ops s0 hinv0) hfind

theorem cacheBacked_cache_new : CacheBacked cache_new := by
  intro id v r h
  simp [cache_new] at h

theorem cacheBacked_step (s : CacheState) (w : ObjectID × ObjectRef × Object × WriteKind)
    (h : CacheBacked s) : CacheBacked (new_with_cache_step s w) := by
  obtain ⟨object_id, object_ref, object, kind⟩ := w
  intro i v r hl
  simp only [new_with_cache_step] at hl ⊢
  by_cases hk : ((i, v) : ObjectID × SequenceNumber) = (object_id, object_ref.2.1)
  · rw [if_pos hk] at hl
    rw [Prod.mk.injEq] at hk
    obtain ⟨hi, hv⟩ := hk
    subst hi
    rcases hold : s.last_version_cache (i, object_ref.2.1) with _ | ex
    · rw [hold] at hl
      injection hl with hr
      refine ⟨object, ?_⟩
      rw [← hr, if_pos rfl]
    · rw [hold] at hl
      injection hl with hr
      by_cases hgt : object_ref.2.1 > ex
      · rw [if_pos hgt] at hr
        refine ⟨object, ?_⟩
        rw [← hr, if_pos rfl]
      · rw [if_neg hgt] at hr
        subst hr
        obtain ⟨o2, ho2⟩ := h i object_ref.2.1 ex hold
        by_cases hk2 : ((i, ex) : ObjectID × SequenceNumber) = (i, object_ref.2.1)
        · exact ⟨object, by rw [if_pos hk2]⟩
        · exact ⟨o2, by rw [if_neg hk2]; exact ho2⟩
  · rw [if_neg hk] at hl
    obtain ⟨o2, ho2⟩ := h i v r hl
    by_cases hk2 : ((i, r) : ObjectID × SequenceNumber) = (object_id, object_ref.2.1)
    · exact ⟨object, by rw [if_pos hk2]⟩
    · exact ⟨o2, by rw [if_neg hk2]; exact ho2⟩

theorem cacheBacked_new_with_cache (w : List (ObjectID × ObjectRef × Object × WriteKind)) :
    CacheBacked (new_with_cache w) := by
  have haux : ∀ (l : List (ObjectID × ObjectRef × Object × WriteKind)) (s : CacheState),
      CacheBacked s → CacheBacked (l.foldl new_with_cache_step s) := by
    intro l
    induction l with
    | nil => intro s hs; exact hs
    | cons e rest ih =>
      intro s hs
      rw [List.foldl_cons]
      exact ih (new_with_cache_step s e) (cacheBacked_step s e hs)
  exact haux w cache_new cacheBacked_cache_new

theorem cacheBacked_get_object {E : Type} (p : Provider E) (s : CacheState)
    (idq : ObjectID) (vq : SequenceNumber) (h : CacheBacked s) :
    CacheBacked (cache_get_object p s idq vq).2 := by
  unfold cache_get_object
  cases hc : s.object_cache (idq, vq) with
  | some o => exact h
  | none =>
    cases hg : p.get_object idq vq with
    | error e => exact h
    | ok o =>
      intro i v r hl
      obtain ⟨o2, ho2⟩ := h i v r hl
      by_cases hk : ((i, r) : ObjectID × SequenceNumber) = (idq, vq)
      · refine ⟨o, ?_⟩
        show (if ((i, r) : ObjectID × SequenceNumber) = (idq, vq)
            then some o else s.object_cache (i, r)) = some o
        rw [if_pos hk]
      · refine ⟨o2, ?_⟩
        show (if ((i, r) : ObjectID × SequenceNumber) = (idq, vq)
            then some o else s.object_cache (i, r)) = some o2
        rw [if_neg hk]
        exact ho2

theorem cacheBacked_find {E : Type} (p : Provider E) (s : CacheState)
    (idq : ObjectID) (vq : SequenceNumber) (h : CacheBacked s) :
    CacheBacked (cache_find_object_lt_or_eq_version p s idq vq).2 := by
  unfold cache_find_object_lt_or_eq_version
  cases hl : s.last_version_cache (idq, vq) with
  | some resolved => exact cacheBacked_get_object p s idq resolved h
  | none =>
    cases hf : p.find_object_lt_or_eq_version idq vq with
    | error e => exact h
    | ok oo =>
      cases oo with
      | none => exact h
      | some o =>
        intro i v r hlv
        have hlv2 : (if ((i, v) : ObjectID × SequenceNumber) = (idq, vq)
            then some o.version else s.last_version_cache (i, v)) = some r := hlv
        by_cases hk : ((i, v) : ObjectID × SequenceNumber) = (idq, vq)
        · rw [if_pos hk] at hlv2
          injection hlv2 with hr
          refine ⟨o, ?_⟩
          show (if ((i, r) : ObjectID × SequenceNumber) = (idq, o.version)
              then some o else s.object_cache (i, r)) = some o
          rw [Prod.mk.injEq] at hk
          rw [if_pos (by rw [Prod.mk.injEq]; exact ⟨hk.1, hr.symm⟩)]
        · rw [if_neg hk] at hlv2
          obtain ⟨o2, ho2⟩ := h i v r hlv2
          by_cases hk2 : ((i, r) : ObjectID × SequenceNumber) = (idq, o.version)
          · refine ⟨o, ?_⟩
            show (if ((i, r) : ObjectID × SequenceNumber) = (idq, o.version)
                then some o else s.object_cache (i, r)) = some o
            rw [if_pos hk2]
          · refine ⟨o2, ?_⟩
            show (if ((i, r) : ObjectID × SequenceNumber) = (idq, o.version)
                then some o else s.object_cache (i, r)) = some o2
            rw [if_neg hk2]
            exact ho2

theorem cacheBacked_run_ops {E : Type} (p : Provider E) (ops : List CacheOp) :
    ∀ (s : CacheState), CacheBacked s → CacheBacked (cache_run_ops p s ops) := by
  induction ops with
  | nil => intro s hs; exact hs
  | cons op rest ih =>
    intro s hs
    rw [cache_run_ops, List.foldl_cons]
    refine ih _ ?_
    cases op with
    | getObj i v => exact cacheBacked_get_object p s i v hs
    | findLE i v => exact cacheBacked_find p s i v hs

theorem cache_find_hit_pair {E : Type} (p : Provider E) (s : CacheState)
    (idq : ObjectID) (vq : SequenceNumber) (resolved : SequenceNumber) (o2 : Object)
    (hl : s.last_version_cache (idq, vq) = some resolved)
    (ho2 : s.object_cache (idq, resolved) = some o2) :
    cache_find_object_lt_or_eq_version p s idq vq = (.ok (some o2), s) := by
  unfold cache_find_object_lt_or_eq_version
  rw [hl]
  dsimp only
  rw [cache_get_object_hit p s idq resolved o2 ho2]

/-- Claim C2: the cache surfaces provider errors verbatim.  On every
state reachable from new or new_with_cache, a get_object or
find_object_lt_or_eq_version call whose underlying provider call fails
with E returns Err(E); on a resolved-le cache hit the get_object
delegation never reaches the provider at all — the resolved key is
always backed by an exact-cache entry, so the call is answered Ok from
the cache with the state unchanged, and the .ok() on that path has no
error to swallow. -/
theorem C2_provider_error_surfaced {E : Type} (p : Provider E) (s0 : CacheState)
    (h0 : s0 = cache_new ∨ ∃ w, s0 = new_with_cache w) (ops : List CacheOp)
    (id : ObjectID) (version : SequenceNumber) :
    (∀ e, (cache_run_ops p s0 ops).object_cache (id, version) = none →
        p.get_object id version = .error e →
        (cache_get_object p (cache_run_ops p s0 ops) id version).1 = .error e) ∧
    (∀ e, (cache_run_ops p s0 ops).last_version_cache (id, version) = none →
        p.find_object_lt_or_eq_version id version = .error e →
        (cache_find_object_lt_or_eq_version p (cache_run_ops p s0 ops) id version).1
          = .error e) ∧
    (∀ resolved,
        (cache_run_ops p s0 ops).last_version_cache (id, version) = some resolved →
        ∃ o, (cache_run_ops p s0 ops).object_cache (id, resolved) = some o ∧
          cache_find_object_lt_or_eq_version p (cache_run_ops p s0 ops) id version
            = (.ok (some o), cache_run_ops p s0 ops)) := by
  have hbacked : CacheBacked (cache_run_ops p s0 ops) := by
    refine cacheBacked_run_ops p ops s0 ?_
    rcases h0 with rfl | ⟨w, rfl⟩
    · exact cacheBacked_cache_new
    · exact cacheBacked_new_with_cache w
  refine ⟨?_, ?_, ?_⟩
  · intro e hmiss herr
    unfold cache_get_object
    rw [hmiss, herr]
  · intro e hmiss herr
    unfold cache_find_object_lt_or_eq_version
    rw [hmiss, herr]
  · intro resolved hhit
    obtain ⟨o, ho⟩ := hbacked id version resolved hhit
    exact ⟨o, ho, cache_find_hit_pair p _ id version resolved o hhit ho⟩

/-- Witness for C2: against the all-error provider, a fresh cache
returns the provider error 7 from both operations, while a
pre-populated cache answers the hit-path query Ok from the exact cache
with the state unchanged — no provider call occurs. -/
theorem C2_provider_error_surfaced_witness :
    (cache_get_object c2w_provider cache_new 1 5).1 = .error 7 ∧
    (cache_find_object_lt_or_eq_version c2w_provider cache_new 1 5).1 = .error 7 ∧
    cache_find_object_lt_or_eq_version c2w_provider (new_with_cache c2_written) 1 5
      = (.ok (some c2_obj), new_with_cache c2_written) := by
  refine ⟨?_, ?_, ?_⟩
  · exact (C2_provider_error_surfaced c2w_provider cache_new (Or.inl rfl) [] 1 5).1
      7 rfl rfl
  · exact (C2_provider_error_surfaced c2w_provider cache_new (Or.inl rfl) [] 1 5).2.1
      7 rfl rfl
  · obtain ⟨o, ho, hfind⟩ :=
      (C2_provider_error_surfaced c2w_provider (new_with_cache c2_written)
        (Or.inr ⟨c2_written, rfl⟩) [] 1 5).2.2 5 rfl
    have ho2 : some c2_obj = some o := by rw [← ho]; rfl
    injection ho2 with ho3
    rw [← ho3] at hfind
    exact hfind

/-- Counterexample to C9 as stated: pre-populating the cache with a
written object whose ObjectRef version 5 disagrees with the object
version 99 makes the query "latest ≤ 5" return the version-99 object,
although the provider (which never finds anything) satisfies the claim
assumption. -/
theorem C9_counterexample :
    c9_provider.find_object_lt_or_eq_version = (fun _ _ => .ok none) ∧
    (cache_find_object_lt_or_eq_version c9_provider (new_with_cache c9_written) 1 5).1
      = .ok (some c9_bad_object) ∧
    c9_bad_object.version = 99 :=
  ⟨rfl, rfl, rfl⟩

/-- Witness for the amended C9 on a fresh cache and a provider that
always finds a version-0 object. -/
theorem C9_amended_witness :
    (cache_find_object_lt_or_eq_version c9w_provider cache_new 2 7).1
      = .ok (some c9_zero_object) ∧
    c9_zero_object.version ≤ 7 :=
  ⟨rfl,
   C9_amended c9w_provider
     (fun i v o h => by
       have h2 : some c9_zero_object = some o := by
         simpa [c9w_provider] using h
       cases h2
       exact Nat.zero_le v)
     cache_new (Or.inl rfl) [] 2 7 c9_zero_object rfl⟩

theorem bmap_lookup_erase {V : Type} (l : List (Nat × V)) (k q : Nat) :
    bmap_lookup (bmap_erase l k) q = if q = k then none else bmap_lookup l q := by
  induction l with
  | nil => simp [bmap_erase, bmap_lookup]
  | cons hd tl ih =>
    obtain ⟨k2, v⟩ := hd
    by_cases hk : k2 = k <;> by_cases hq : q = k <;> by_cases hq2 : k2 = q <;>
      simp_all [bmap_erase, bmap_lookup]

theorem bmap_lookup_entry_extend {V : Type} (l : List (Nat × V)) (k q : Nat)
    (dflt : V) (f : V → V) :
    bmap_lookup (bmap_entry_extend l k dflt f) q =
      if q = k then some (f ((bmap_lookup l k).getD dflt)) else bmap_lookup l q := by
  induction l with
  | nil =>
    by_cases hq : q = k <;> simp_all [bmap_entry_extend, bmap_lookup]
    exact fun h => hq h.symm
  | cons hd tl ih =>
    obtain ⟨k2, v⟩ := hd
    by_cases hk : k2 = k <;> by_cases hq : q = k <;> by_cases hq2 : k2 = q <;>
      simp_all [bmap_entry_extend, bmap_lookup]

theorem ws_drain_inv {M : Type} (m : M) (n0 : Nat) :
    ∀ (fuel : Nat) (bmap : List (Nat × List M)) (next : Nat) (sent : List M),
      n0 ≤ next → next ≠ U64_MAX → m ∉ sent →
      (∀ k l, bmap_lookup bmap k = some l → (m ∈ l → k < n0) ∧ k + 1 < U64_MAX) →
      m ∉ (ws_drain fuel bmap next sent).2.2 ∧
      (ws_drain fuel bmap next sent).2.1 ≠ U64_MAX ∧
      next ≤ (ws_drain fuel bmap next sent).2.1 ∧
      (∀ k l, bmap_lookup (ws_drain fuel bmap next sent).1 k = some l →
        (m ∈ l → k < n0) ∧ k + 1 < U64_MAX) := by
  intro fuel
  induction fuel with
  | zero =>
    intro bmap next sent hn hnm hs hb
    exact ⟨hs, hnm, le_refl _, hb⟩
  | succ fuel ih =>
    intro bmap next sent hn hnm hs hb
    simp only [ws_drain]
    cases hl : bmap_lookup bmap next with
    | none => exact ⟨hs, hnm, le_refl _, hb⟩
    | some msgs =>
      have hkb := hb next msgs hl
      have hmm : m ∉ msgs := fun hm2 => absurd (hkb.1 hm2) (by omega)
      have hb2 : ∀ k l, bmap_lookup (bmap_erase bmap next) k = some l →
          (m ∈ l → k < n0) ∧ k + 1 < U64_MAX := by
        intro k l hkl
        rw [bmap_lookup_erase] at hkl
        by_cases hq : k = next
        · rw [if_pos hq] at hkl; cases hkl
        · rw [if_neg hq] at hkl; exact hb k l hkl
      have hnm2 : next + 1 ≠ U64_MAX := by
        have := hkb.2
        omega
      have hs2 : m ∉ sent ++ msgs := by
        intro hmem
        rcases List.mem_append.mp hmem with h1 | h2
        exacts [hs h1, hmm h2]
      obtain ⟨a, b, c, d⟩ := ih (bmap_erase bmap next) (next + 1) (sent ++ msgs)
        (by omega) hnm2 hs2 hb2
      exact ⟨a, b, le_trans (Nat.le_succ next) c, d⟩

theorem ws_step_inv {M : Type} (m : M) (s : WsChannelState M) (batch : Nat × List M)
    (h : ws_inv m s) (hseq : batch.1 + 1 < U64_MAX) (hm : m ∉ batch.2) :
    ws_inv m (ws_step s batch) := by
  obtain ⟨hni, hsent, hb⟩ := h
  obtain ⟨seq, msgs⟩ := batch
  have hseq2 : seq + 1 < U64_MAX := hseq
  have hm2 : m ∉ msgs := hm
  simp only [ws_step]
  rw [if_neg hni]
  by_cases he : seq = s.next_index
  · rw [if_pos he]
    subst he
    have hb2 : ∀ k l, bmap_lookup s.bmap_checkpoints k = some l →
        (m ∈ l → k < s.next_index + 1) ∧ k + 1 < U64_MAX := by
      intro k l hkl
      exact ⟨fun hmm => by have := (hb k l hkl).1 hmm; omega, (hb k l hkl).2⟩
    have hs2 : m ∉ s.sent ++ msgs := by
      intro hmem
      rcases List.mem_append.mp hmem with h1 | h2
      exacts [hsent h1, hm2 h2]
    obtain ⟨a, b, c, d⟩ := ws_drain_inv m (s.next_index + 1) s.bmap_checkpoints.length
      s.bmap_checkpoints (s.next_index + 1) (s.sent ++ msgs) (le_refl _) (by omega) hs2 hb2
    exact ⟨b, a, fun k l hkl => ⟨fun hmm => lt_of_lt_of_le ((d k l hkl).1 hmm) c,
      (d k l hkl).2⟩⟩
  · rw [if_neg he]
    refine ⟨hni, hsent, ?_⟩
    intro k l hkl
    have hkl2 : bmap_lookup (bmap_entry_extend s.bmap_checkpoints seq []
        (fun old => old ++ msgs)) k = some l := hkl
    rw [bmap_lookup_entry_extend] at hkl2
    by_cases hq : k = seq
    · rw [if_pos hq] at hkl2
      injection hkl2 with hkl3
      constructor
      · intro hmm
        rw [← hkl3] at hmm
        rcases List.mem_append.mp hmm with h1 | h2
        · show k < s.next_index
          rcases hold : bmap_lookup s.bmap_checkpoints seq with _ | l0
          · rw [hold] at h1
            simp only [Option.getD_none] at h1
            cases h1
          · rw [hold] at h1
            simp only [Option.getD_some] at h1
            have := (hb seq l0 hold).1 h1
            omega
        · exact absurd h2 hm2
      · show k + 1 < U64_MAX
        omega
    · rw [if_neg hq] at hkl2
      exact hb k l hkl2

theorem ws_run_from_inv {M : Type} (m : M) (batches : List (Nat × List M)) :
    ∀ (s : WsChannelState M), ws_inv m s →
      (∀ b ∈ batches, b.1 + 1 < U64_MAX ∧ m ∉ b.2) →
      ws_inv m (ws_run_from s batches) := by
  induction batches with
  | nil => intro s hs _; exact hs
  | cons b rest ih =>
    intro s hs hball
    rw [ws_run_from, List.foldl_cons]
    exact ih (ws_step s b)
      (ws_step_inv m s b hs (hball b (List.mem_cons_self b rest)).1
        (hball b (List.mem_cons_self b rest)).2)
      (fun x hx => hball x (List.mem_cons_of_mem b hx))

theorem notif_drain_sent_free {N : Type} (m : N) (received : List (Nat × List N))
    (hrec : ∀ kv ∈ received, m ∉ kv.2) :
    ∀ (fuel : Nat) (bmap : List (Nat × List (Nat × List N))) (next : Nat)
      (sent : List (List N)), (∀ l ∈ sent, m ∉ l) →
      ∀ l ∈ (notif_drain received fuel bmap next sent).2.2, m ∉ l := by
  intro fuel
  induction fuel with
  | zero => intro bmap next sent hs; exact hs
  | succ fuel ih =>
    intro bmap next sent hs
    simp only [notif_drain]
    cases hl : bmap_lookup bmap next with
    | none => exact hs
    | some nc =>
      refine ih (bmap_erase bmap next) (next + 1) (sent ++ notif_publish received) ?_
      intro l hlmem
      rcases List.mem_append.mp hlmem with h1 | h2
      · exact hs l h1
      · obtain ⟨kv, hkv, rfl⟩ := List.mem_map.mp h2
        exact hrec kv hkv

theorem notif_step_sent_free {N : Type} (m : N) (s : NotifChannelState N)
    (batch : Nat × List (Nat × List N)) (hs : notif_sent_free m s)
    (hb : ∀ kv ∈ batch.2, m ∉ kv.2) : notif_sent_free m (notif_step s batch) := by
  obtain ⟨seq, bm⟩ := batch
  have hb2 : ∀ kv ∈ bm, m ∉ kv.2 := hb
  simp only [notif_step]
  by_cases he : seq = (if s.next_index = U64_MAX then seq else s.next_index)
  · rw [if_pos he]
    intro l hl
    refine notif_drain_sent_free m bm hb2 _ _ _ _ ?_ l hl
    intro l2 h2
    rcases List.mem_append.mp h2 with h3 | h4
    · exact hs l2 h3
    · obtain ⟨kv, hkv, rfl⟩ := List.mem_map.mp h4
      exact hb2 kv hkv
  · rw [if_neg he]
    exact hs

theorem notif_run_from_sent_free {N : Type} (m : N)
    (batches : List (Nat × List (Nat × List N))) :
    ∀ (s : NotifChannelState N), notif_sent_free m s →
      (∀ b ∈ batches, ∀ kv ∈ b.2, m ∉ kv.2) →
      notif_sent_free m (notif_run_from s batches) := by
  induction batches with
  | nil => intro s hs _; exact hs
  | cons b rest ih =>
    intro s hs hball
    rw [notif_run_from, List.foldl_cons]
    exact ih (notif_step s b)
      (notif_step_sent_free m s b hs (hball b (List.mem_cons_self b rest)))
      (fun x hx => hball x (List.mem_cons_of_mem b hx))

/-- Counterexample to C4 as stated: after forwarding batch 5, the late
batch (4, [2]) is not dropped — the pending buffer changes from [] to
[(4, [2])] (the bus output is unchanged). -/
theorem C4_counterexample :
    (ws_run [(5, [1]), (4, [2])]).sent = (ws_run [(5, [1])]).sent ∧
    (ws_run [(5, [1])]).bmap_checkpoints = [] ∧
    (ws_run [(5, [1]), (4, [2])]).bmap_checkpoints = [(4, [2])] :=
  ⟨by decide, by decide, by decide⟩

/-- Claim C4 amended: on both channels, a batch arriving with a
sequence number below the initialized expected index contributes nothing
to the bus, now or after any future inputs (given sequence numbers stay
clear of the u64::MAX sentinel), but it is not dropped: its messages are
appended to the pending-buffer entry for its sequence number. -/
theorem C4_amended :
    (∀ (M : Type) (s : WsChannelState M) (seq : Nat) (msgs : List M)
        (future : List (Nat × List M)) (m : M),
      s.next_index ≠ U64_MAX → seq < s.next_index → seq + 1 < U64_MAX →
      m ∈ msgs → m ∉ s.sent →
      (∀ k l, bmap_lookup s.bmap_checkpoints k = some l →
        (m ∈ l → k < s.next_index) ∧ k + 1 < U64_MAX) →
      (∀ b ∈ future, b.1 + 1 < U64_MAX ∧ m ∉ b.2) →
      (ws_step s (seq, msgs)).sent = s.sent ∧
      bmap_lookup (ws_step s (seq, msgs)).bmap_checkpoints seq
        = some ((bmap_lookup s.bmap_checkpoints seq).getD [] ++ msgs) ∧
      m ∉ (ws_run_from (ws_step s (seq, msgs)) future).sent) ∧
    (∀ (N : Type) (s : NotifChannelState N) (seq : Nat) (bm : List (Nat × List N))
        (future : List (Nat × List (Nat × List N))) (m : N),
      s.next_index ≠ U64_MAX → seq < s.next_index →
      notif_sent_free m s →
      (∀ b ∈ future, ∀ kv ∈ b.2, m ∉ kv.2) →
      (notif_step s (seq, bm)).sent = s.sent ∧
      bmap_lookup (notif_step s (seq, bm)).bmap_checkpoints seq
        = some (btree_extend ((bmap_lookup s.bmap_checkpoints seq).getD []) bm) ∧
      notif_sent_free m (notif_run_from (notif_step s (seq, bm)) future)) := by
  constructor
  · intro M s seq msgs future m hni hlt hseq hm hsent hb hfut
    have hne : seq ≠ s.next_index := Nat.ne_of_lt hlt
    have hstep : ws_step s (seq, msgs) =
        { next_index := s.next_index,
          bmap_checkpoints := bmap_entry_extend s.bmap_checkpoints seq []
            (fun old => old ++ msgs),
          sent := s.sent } := by
      simp only [ws_step]
      rw [if_neg hni, if_neg hne]
    refine ⟨by rw [hstep], ?_, ?_⟩
    · rw [hstep]
      show bmap_lookup (bmap_entry_extend s.bmap_checkpoints seq []
          (fun old => old ++ msgs)) seq
        = some ((bmap_lookup s.bmap_checkpoints seq).getD [] ++ msgs)
      rw [bmap_lookup_entry_extend, if_pos rfl]
    · have hinv1 : ws_inv m (ws_step s (seq, msgs)) := by
        rw [hstep]
        refine ⟨hni, hsent, ?_⟩
        intro k l hkl
        simp only at hkl
        rw [bmap_lookup_entry_extend] at hkl
        by_cases hq : k = seq
        · subst hq
          constructor
          · intro _
            simp only
            omega
          · omega
        · rw [if_neg hq] at hkl
          exact hb k l hkl
      exact (ws_run_from_inv m future (ws_step s (seq, msgs)) hinv1 hfut).2.1
  · intro N s seq bm future m hni hlt hsent hfut
    have hne : seq ≠ s.next_index := Nat.ne_of_lt hlt
    have hstep : notif_step s (seq, bm) =
        { next_index := s.next_index,
          bmap_checkpoints := bmap_entry_extend s.bmap_checkpoints seq []
            (fun old => btree_extend old bm),
          sent := s.sent } := by
      simp only [notif_step]
      rw [if_neg hni, if_neg hne]
    refine ⟨by rw [hstep], ?_, ?_⟩
    · rw [hstep]
      show bmap_lookup (bmap_entry_extend s.bmap_checkpoints seq []
          (fun old => btree_extend old bm)) seq
        = some (btree_extend ((bmap_lookup s.bmap_checkpoints seq).getD []) bm)
      rw [bmap_lookup_entry_extend, if_pos rfl]
    · have hinv1 : notif_sent_free m (notif_step s (seq, bm)) := by
        rw [hstep]
        exact hsent
      exact notif_run_from_sent_free m future (notif_step s (seq, bm)) hinv1 hfut

/-- Witness for the amended C4 on both channels with expected index 6
and a late batch for sequence 4. -/
theorem C4_amended_witness :
    ((ws_step ({ next_index := 6, bmap_checkpoints := [], sent := [1] } :
        WsChannelState Nat) (4, [2])).sent = [1] ∧
      bmap_lookup (ws_step ({ next_index := 6, bmap_checkpoints := [], sent := [1] } :
        WsChannelState Nat) (4, [2])).bmap_checkpoints 4 = some [2] ∧
      2 ∉ (ws_run_from (ws_step ({ next_index := 6, bmap_checkpoints := [], sent := [1] } :
        WsChannelState Nat) (4, [2])) [(6, [3])]).sent) ∧
    ((notif_step ({ next_index := 6, bmap_checkpoints := [], sent := [[1]] } :
        NotifChannelState Nat) (4, [(0, [2])])).sent = [[1]] ∧
      bmap_lookup (notif_step ({ next_index := 6, bmap_checkpoints := [], sent := [[1]] } :
        NotifChannelState Nat) (4, [(0, [2])])).bmap_checkpoints 4 = some [(0, [2])] ∧
      2 ∉ ([3] : List Nat)) := by
  have hws := C4_amended.1 Nat { next_index := 6, bmap_checkpoints := [], sent := [1] }
    4 [2] [(6, [3])] 2 (by decide) (by decide) (by decide) (by decide) (by decide)
    (fun k l h => nomatch h) (by decide)
  have hnf := C4_amended.2 Nat { next_index := 6, bmap_checkpoints := [], sent := [[1]] }
    4 [(0, [2])] [(6, [(0, [3])])] 2 (by decide) (by decide)
    (by intro l hl; rw [List.mem_singleton] at hl; subst hl; decide) (by decide)
  refine ⟨⟨hws.1, hws.2.1, hws.2.2⟩, ⟨hnf.1, hnf.2.1, ?_⟩⟩
  exact hnf.2.2 [3] (by decide)

theorem bmap_erase_length_le {V : Type} (l : List (Nat × V)) (k : Nat) :
    (bmap_erase l k).length ≤ l.length := by
  induction l with
  | nil => exact le_refl _
  | cons hd tl ih =>
    obtain ⟨k2, v⟩ := hd
    simp only [bmap_erase]
    by_cases hk : k2 = k
    · rw [if_pos hk]
      exact le_trans ih (Nat.le_succ _)
    · rw [if_neg hk]
      simpa using ih

theorem bmap_erase_length_lt {V : Type} (l : List (Nat × V)) (k : Nat) (v0 : V)
    (h : bmap_lookup l k = some v0) : (bmap_erase l k).length < l.length := by
  induction l with
  | nil => cases h
  | cons hd tl ih =>
    obtain ⟨k2, v⟩ := hd
    simp only [bmap_lookup] at h
    simp only [bmap_erase]
    by_cases hk : k2 = k
    · rw [if_pos hk]
      simpa using Nat.lt_succ_of_le (bmap_erase_length_le tl k)
    · rw [if_neg hk]
      rw [if_neg hk] at h
      simpa using ih h

theorem ws_drain_fuel_irrelevant {M : Type} :
    ∀ (fuel : Nat) (bmap : List (Nat × List M)) (next : Nat) (sent : List M),
      bmap.length ≤ fuel →
      ws_drain fuel bmap next sent = ws_drain (fuel + 1) bmap next sent := by
  intro fuel
  induction fuel with
  | zero =>
    intro bmap next sent hlen
    have hb : bmap = [] := List.length_eq_zero.mp (Nat.le_zero.mp hlen)
    subst hb
    simp [ws_drain, bmap_lookup]
  | succ fuel ih =>
    intro bmap next sent hlen
    simp only [ws_drain]
    cases hl : bmap_lookup bmap next with
    | none => rfl
    | some msgs =>
      exact ih (bmap_erase bmap next) (next + 1) (sent ++ msgs)
        (by have h1 := bmap_erase_length_lt bmap next msgs hl; omega)

theorem notif_drain_fuel_irrelevant {N : Type} (received : List (Nat × List N)) :
    ∀ (fuel : Nat) (bmap : List (Nat × List (Nat × List N))) (next : Nat)
      (sent : List (List N)),
      bmap.length ≤ fuel →
      notif_drain received fuel bmap next sent
        = notif_drain received (fuel + 1) bmap next sent := by
  intro fuel
  induction fuel with
  | zero =>
    intro bmap next sent hlen
    have hb : bmap = [] := List.length_eq_zero.mp (Nat.le_zero.mp hlen)
    subst hb
    simp [notif_drain, bmap_lookup]
  | succ fuel ih =>
    intro bmap next sent hlen
    simp only [notif_drain]
    cases hl : bmap_lookup bmap next with
    | none => rfl
    | some nc =>
      exact ih (bmap_erase bmap next) (next + 1) (sent ++ notif_publish received)
        (by have h1 := bmap_erase_length_lt bmap next nc hl; omega)

/-- Witness for C8 on a concrete successful transaction whose record
falls through to the status map. -/
theorem C8_witness :
    get_balance_changes_with_status_from_effect c10_provider c10_effects [] none
        (fun q => if q = 1 then some ObjectStatus.mutated else none)
        (fun _ => none) (fun _ => none)
      = .ok [{ owner := .addressOwner 50, coin_type := .sui, amount := 0,
               object_id := 1, status := .mutated },
             { owner := .addressOwner 9, coin_type := .bool, amount := 0,
               object_id := 3, status := .mutated }] :=
  ((C8_classification_order (E := Unit) (fun _ => none) (fun _ => none)
      (fun q => if q = 1 then some ObjectStatus.mutated else none)).1
    c10_provider c10_effects [] none rfl).trans rfl

end Sui
